import Mathlib

/-!
Shallow embedding of the Tasklink priority-bucketing and sync
reconciliation engine, translated from
backend/src/services/todoistService.ts (normalizePrioritySettings,
computeConceptualBucket, bucketToTodoistPriority,
syncAssignmentsToTodoist) and from the per-assignment window filtering
of backend/src/services/canvasService.ts
(fetchAndStoreUpcomingAssignments).

Dates are modelled as canonical calendar-day numbers (Int).  The source
stores date-only values (midnight-anchored for the day arithmetic), and
the day difference it computes, namely the rounded millisecond
difference of the two midnight-aligned values, is exactly the
difference of the day numbers.  Times written into lastSyncedAt and
finishedAt are modelled by an Int parameter called now; a single run
uses one value for it.

The destination system (Todoist) is modelled as an explicit environment
holding the remote task list, a counter producing fresh task ids, and
deterministic failure oracles for the three kinds of per-item API calls
the engine makes (list tasks of a project, update a task, create a
task).  An update of a task that no longer exists remotely fails, as it
does against the real API.  The record store is modelled as an explicit
Db value; a single unexpected store failure site (the assignment query)
is modelled by the storeFails flag, standing for the unexpected
exceptions that the outer try/catch of the source turns into an ERROR
run.
-/

namespace Tasklink

/-- Conceptual urgency bucket, most urgent first (p1 = B1, p4 = B4). -/
inductive PriorityKey
  | p1
  | p2
  | p3
  | p4
deriving DecidableEq, Repr

/-- Raw per-bucket user input (interface PriorityRangeInput). -/
structure PriorityRangeInput where
  enabled : Option Bool
  toBound : Option Int
  todoistPriority : Option Nat
deriving DecidableEq, Repr

/-- Raw user input for the four buckets (interface PrioritySettingsInput). -/
structure PrioritySettingsInput where
  p1 : Option PriorityRangeInput
  p2 : Option PriorityRangeInput
  p3 : Option PriorityRangeInput
  p4 : Option PriorityRangeInput
deriving DecidableEq, Repr

/-- Normalized per-bucket configuration (interface NormalizedPriorityRange). -/
structure NormalizedPriorityRange where
  enabled : Bool
  toBound : Int
  todoistPriority : Nat
deriving DecidableEq, Repr

/-- Normalized configuration for the four buckets. -/
structure NormalizedPrioritySettings where
  rp1 : NormalizedPriorityRange
  rp2 : NormalizedPriorityRange
  rp3 : NormalizedPriorityRange
  rp4 : NormalizedPriorityRange
deriving DecidableEq, Repr

/-- Field access by bucket key, the record indexing of the source. -/
def NormalizedPrioritySettings.ranges (s : NormalizedPrioritySettings) :
    PriorityKey → NormalizedPriorityRange
  | .p1 => s.rp1
  | .p2 => s.rp2
  | .p3 => s.rp3
  | .p4 => s.rp4

/-- Translation of clampDay from todoistService.ts. -/
def clampDay (value : Int) : Int :=
  if value ≤ 1 then 1
  else if value = 2 then 2
  else if value = 3 then 3
  else if value = 4 then 4
  else 5

/-- Translation of normalizePrioritySettings from todoistService.ts. -/
def normalizePrioritySettings (settings : Option PrioritySettingsInput) :
    NormalizedPrioritySettings :=
  let b1 : NormalizedPriorityRange :=
    { enabled := ((settings.bind PrioritySettingsInput.p1).bind PriorityRangeInput.enabled).getD true
      toBound := clampDay (((settings.bind PrioritySettingsInput.p1).bind PriorityRangeInput.toBound).getD 2)
      todoistPriority := ((settings.bind PrioritySettingsInput.p1).bind PriorityRangeInput.todoistPriority).getD 4 }
  let b2 : NormalizedPriorityRange :=
    { enabled := ((settings.bind PrioritySettingsInput.p2).bind PriorityRangeInput.enabled).getD true
      toBound := clampDay (((settings.bind PrioritySettingsInput.p2).bind PriorityRangeInput.toBound).getD 3)
      todoistPriority := ((settings.bind PrioritySettingsInput.p2).bind PriorityRangeInput.todoistPriority).getD 3 }
  let b3 : NormalizedPriorityRange :=
    { enabled := ((settings.bind PrioritySettingsInput.p3).bind PriorityRangeInput.enabled).getD true
      toBound := clampDay (((settings.bind PrioritySettingsInput.p3).bind PriorityRangeInput.toBound).getD 4)
      todoistPriority := ((settings.bind PrioritySettingsInput.p3).bind PriorityRangeInput.todoistPriority).getD 2 }
  let b4 : NormalizedPriorityRange :=
    { enabled := ((settings.bind PrioritySettingsInput.p4).bind PriorityRangeInput.enabled).getD false
      toBound := 5
      todoistPriority := ((settings.bind PrioritySettingsInput.p4).bind PriorityRangeInput.todoistPriority).getD 1 }
  let c1 := clampDay b1.toBound
  let c2 := clampDay b2.toBound
  let c3 := clampDay b3.toBound
  let c2 := if c2 < c1 then clampDay (c1 + 1) else c2
  let c3 := if c3 < c2 then clampDay (c2 + 1) else c3
  { rp1 := { b1 with toBound := c1 }
    rp2 := { b2 with toBound := c2 }
    rp3 := { b3 with toBound := c3 }
    rp4 := { b4 with toBound := 5 } }

/-- Translation of computeConceptualBucket from todoistService.ts. -/
def computeConceptualBucket (diffDays : Int) (settings : NormalizedPrioritySettings) :
    PriorityKey :=
  if diffDays ≤ 0 then .p1
  else
    let day := clampDay (if diffDays > 5 then 5 else diffDays)
    if day ≤ settings.rp1.toBound then .p1
    else if day ≤ settings.rp2.toBound then .p2
    else if day ≤ settings.rp3.toBound then .p3
    else .p4

/-- Translation of bucketToTodoistPriority from todoistService.ts: scan
the bucket order downward in index from the classified bucket, then
upward past it, for the first enabled bucket; fall back to 2. -/
def bucketToTodoistPriority (bucket : PriorityKey) (settings : NormalizedPrioritySettings) :
    Nat :=
  let order : List PriorityKey := [.p1, .p2, .p3, .p4]
  let idx := order.indexOf bucket
  match (order.take (idx + 1)).reverse.find? (fun k => (settings.ranges k).enabled) with
  | some k => (settings.ranges k).todoistPriority
  | none =>
    match (order.drop (idx + 1)).find? (fun k => (settings.ranges k).enabled) with
    | some k => (settings.ranges k).todoistPriority
    | none => 2

/-- Bucket classification as performed inside the per-assignment loop of
syncAssignmentsToTodoist: a missing due date is classified p4, otherwise
the rounded day difference between the due date and today is bucketed. -/
def classifyBucket (due : Option Int) (today : Int) (s : NormalizedPrioritySettings) :
    PriorityKey :=
  match due with
  | none => .p4
  | some d => computeConceptualBucket (d - today) s

/-- Position of a bucket in the most-urgent-first order. -/
def pIdx : PriorityKey → Nat
  | .p1 => 0
  | .p2 => 1
  | .p3 => 2
  | .p4 => 3

/-- Enabled flag of a bucket. -/
def enabledAt (s : NormalizedPrioritySettings) (k : PriorityKey) : Bool :=
  (s.ranges k).enabled

/-- Configured destination priority level of a bucket. -/
def priAt (s : NormalizedPrioritySettings) (k : PriorityKey) : Nat :=
  (s.ranges k).todoistPriority

/-- Position of a bucket in the scan sequence of the priority
resolution: buckets at or before the classified one are visited first,
in order of decreasing index, then the remaining ones in increasing
index.  A smaller rank is visited earlier. -/
def scanRank (bucket k : PriorityKey) : Nat :=
  if pIdx k ≤ pIdx bucket then pIdx bucket - pIdx k else pIdx k

/-- Reference definition of the bucket classification, written from the
words of the specification: null due date gives B4; a day difference of
at most zero gives B1 unconditionally; otherwise the difference is
clamped to the range one to five and compared against the three
thresholds in order. -/
def classifyBucketSpec (due : Option Int) (today : Int) (s : NormalizedPrioritySettings) :
    PriorityKey :=
  match due with
  | none => .p4
  | some d =>
    let diffDays := d - today
    if diffDays ≤ 0 then .p1
    else
      let dd := max 1 (min diffDays 5)
      if dd ≤ s.rp1.toBound then .p1
      else if dd ≤ s.rp2.toBound then .p2
      else if dd ≤ s.rp3.toBound then .p3
      else .p4

/-- Threshold input of one bucket of the raw settings. -/
def inputTo (settings : Option PrioritySettingsInput)
    (f : PrioritySettingsInput → Option PriorityRangeInput) : Option Int :=
  (settings.bind f).bind PriorityRangeInput.toBound

/-- Per-assignment window filtering of the fetch cycle, translated from
fetchAndStoreUpcomingAssignments in canvasService.ts: the look-ahead
option is kept only when it is a positive number; an undated assignment
is kept exactly when includeNoDueDate holds; a due date before today is
dropped; an active look-ahead bound drops due dates further out than
the bound. -/
def keepAssignment (due : Option Int) (today : Int) (daysAhead : Option Int)
    (includeNoDueDate : Bool) : Bool :=
  let maxDaysAhead : Option Int :=
    match daysAhead with
    | some d => if d > 0 then some d else none
    | none => none
  match due with
  | none => includeNoDueDate
  | some d =>
    if d < today then false
    else
      match maxDaysAhead with
      | none => true
      | some m => decide (d - today ≤ m)

/-- Reference window filter, written from the words of the
specification: undated gives includeUndated; past-due gives false; a
null look-ahead gives true; otherwise keep exactly when the day
difference is at most the look-ahead value. -/
def isInScopeSpec (due : Option Int) (today : Int) (lookAheadDays : Option Int)
    (includeUndated : Bool) : Bool :=
  match due with
  | none => includeUndated
  | some d =>
    if d < today then false
    else
      match lookAheadDays with
      | none => true
      | some m => decide (d - today ≤ m)

/-! ## Data model of the reconciliation engine -/

/-- Course record: per-user mapping of a source course to an optional
destination project. -/
structure Course where
  id : String
  userId : String
  todoistProjectId : Option String
deriving DecidableEq, Repr

/-- Assignment record. -/
structure Assignment where
  id : String
  courseId : String
  name : String
  dueDate : Option Int
  todoistTaskId : Option String
  lastSyncedAt : Option Int
deriving DecidableEq, Repr

/-- Task as it lives in the destination system. -/
structure RemoteTask where
  id : String
  content : String
  projectId : String
  priority : Nat
  due : Option Int
deriving DecidableEq, Repr

/-- Destination-system environment: current remote tasks, a fresh-id
counter, and deterministic failure oracles for the three per-item call
kinds the engine performs. -/
structure TodoistEnv where
  tasks : List RemoteTask
  nextId : Nat
  listFails : String → Bool
  updateFails : String → Bool
  createFails : String → String → Bool

/-- Status of a sync run record. -/
inductive SyncStatus
  | RUNNING
  | SUCCESS
  | ERROR
deriving DecidableEq, Repr

/-- SyncRun record. -/
structure SyncRun where
  id : Nat
  userId : String
  status : SyncStatus
  message : String
  finishedAt : Option Int
deriving DecidableEq, Repr

/-- Observable events of one engine invocation, in order: creation of
the SyncRun record, each destination-system call together with whether
it succeeded, and the finalization of the SyncRun record. -/
inductive SyncEvent
  | createRun (status : SyncStatus)
  | destCall (ok : Bool)
  | finalizeRun (status : SyncStatus) (message : String)
deriving DecidableEq, Repr

/-- Record store contents relevant to the engine. -/
structure Db where
  configuredUsers : List String
  courses : List Course
  assignments : List Assignment
  syncRuns : List SyncRun
  nextRunId : Nat
  storeFails : Bool
deriving Repr

/-- Whether a task with the given id currently exists remotely. -/
def taskExists (env : TodoistEnv) (tid : String) : Bool :=
  env.tasks.any (fun t => t.id == tid)

/-- Whether an update call on the given task id succeeds: the oracle
does not fail it and the task still exists remotely. -/
def updateOk (env : TodoistEnv) (tid : String) : Bool :=
  !env.updateFails tid && taskExists env tid

/-- Effect of a successful update call on the remote state. -/
def updateRemote (env : TodoistEnv) (tid : String) (pri : Nat) (due : Option Int) :
    TodoistEnv :=
  { env with tasks := env.tasks.map (fun t =>
      if t.id = tid then { t with priority := pri, due := due } else t) }

/-- Fresh destination task id produced by the n-th creation. -/
def freshId (n : Nat) : String :=
  "new" ++ toString n

/-- Effect of a successful create call: the new task id and the new
remote state. -/
def createRemote (env : TodoistEnv) (proj content : String) (pri : Nat) (due : Option Int) :
    String × TodoistEnv :=
  let tid := freshId env.nextId
  (tid,
    { env with
      tasks := env.tasks ++ [{ id := tid, content := content, projectId := proj, priority := pri, due := due }]
      nextId := env.nextId + 1 })

/-- Whitespace trimming at both ends, modelled on the character list of
the string; this is the String.prototype.trim call of makeTaskKey. -/
def trimChars (l : List Char) : List Char :=
  ((l.dropWhile Char.isWhitespace).reverse.dropWhile Char.isWhitespace).reverse

/-- Trim of a string value. -/
def strTrim (s : String) : String :=
  ⟨trimChars s.data⟩

/-- Translation of makeTaskKey: project id and trimmed content joined
with a double colon. -/
def makeTaskKey (projectId content : String) : String :=
  projectId ++ "::" ++ strTrim content

/-- Key of a remote task in the duplicate-avoidance index. -/
def keyOf (t : RemoteTask) : String :=
  makeTaskKey t.projectId t.content

/-- Lookup in the task index, modelled as a first-match association
list. -/
def lookupKey (m : List (String × String)) (k : String) : Option String :=
  (m.find? (fun e => e.1 = k)).map (fun e => e.2)

/-- Map set: overwrite the entry when the key is present, append it
otherwise. -/
def setKey (m : List (String × String)) (k v : String) : List (String × String) :=
  if (m.find? (fun e => e.1 = k)).isSome then
    m.map (fun e => if e.1 = k then (k, v) else e)
  else m ++ [(k, v)]

/-- Index the listed tasks of one project: first id wins per key. -/
def indexProject (ix : List (String × String)) (tasks : List RemoteTask)
    (projectId : String) : List (String × String) :=
  tasks.foldl (fun ix t =>
    let k := makeTaskKey projectId t.content
    if (lookupKey ix k).isSome then ix else ix ++ [(k, t.id)]) ix

/-- Tasks the destination returns when listing one project. -/
def projectTasks (env : TodoistEnv) (projectId : String) : List RemoteTask :=
  env.tasks.filter (fun t => t.projectId == projectId)

/-- Build the duplicate-avoidance index over the given projects.  A
failed listing contributes nothing for that project and is non-fatal. -/
def buildIndex (env : TodoistEnv) (projectIds : List String) :
    List (String × String) × List SyncEvent :=
  projectIds.foldl
    (fun acc p =>
      if env.listFails p then (acc.1, acc.2 ++ [SyncEvent.destCall false])
      else (indexProject acc.1 (projectTasks env p) p, acc.2 ++ [SyncEvent.destCall true]))
    ([], [])

/-- Insertion-order deduplication, the Set construction of the source. -/
def dedupFirst (l : List String) : List String :=
  l.foldl (fun acc x => if x ∈ acc then acc else acc ++ [x]) []

/-- Courses in scope for a run: selected by id, owned by the requesting
user, and carrying a destination-project link. -/
def scopedCourses (db : Db) (userId : String) (courseIds : List String) : List Course :=
  db.courses.filter (fun c =>
    courseIds.contains c.id && c.userId == userId && c.todoistProjectId.isSome)

/-- Assignments of the in-scope courses, the snapshot the loop iterates. -/
def scopedAssignments (db : Db) (courses : List Course) : List Assignment :=
  db.assignments.filter (fun a => courses.any (fun c => c.id == a.courseId))

/-- Distinct non-empty project ids of the in-scope courses. -/
def projectIdsOf (courses : List Course) : List String :=
  dedupFirst ((courses.filterMap Course.todoistProjectId).filter (fun p => p != ""))

/-- Pointwise row update by id, the keyed update of the record store. -/
def applyRow (l : List Assignment) (rid : String) (f : Assignment → Assignment) :
    List Assignment :=
  l.map (fun a => if a.id = rid then f a else a)

/-- Keyed assignment update inside the store. -/
def updateAssignmentRow (db : Db) (rid : String) (f : Assignment → Assignment) : Db :=
  { db with assignments := applyRow db.assignments rid f }

/-- State threaded through the per-assignment loop. -/
structure LoopState where
  db : Db
  env : TodoistEnv
  index : List (String × String)
  created : Nat
  skipped : Nat
  events : List SyncEvent

/-- Effective destination project of an assignment under the course
lookup the loop performs: none when the course is missing, unlinked, or
linked to the empty string, which the source treats as falsy. -/
def effectiveProject (courses : List Course) (a : Assignment) : Option String :=
  match courses.find? (fun c => c.id == a.courseId) with
  | none => none
  | some c =>
    match c.todoistProjectId with
    | none => none
    | some p => if p = "" then none else some p

/-- Destination priority the loop computes for one assignment: the
conceptual bucket of its due date mapped through the enabled-bucket
scan. -/
def assignPriority (ns : NormalizedPrioritySettings) (today : Int) (a : Assignment) : Nat :=
  bucketToTodoistPriority (classifyBucket a.dueDate today ns) ns

/-- Translation of one iteration of the per-assignment loop of
syncAssignmentsToTodoist.  An assignment whose course lookup yields no
usable project is counted skipped.  An unlinked assignment is first
matched against the index: on a match, a successful update relinks it
and counts it skipped, while a failed update moves on to the next
assignment without any further action; without a match, a creation is
attempted, counted created on success and skipped on failure, and the
new task is inserted into the index.  A linked assignment is updated in
place; a failed update clears the stored link, stamps lastSyncedAt and
counts it skipped. -/
def processOne (courses : List Course) (ns : NormalizedPrioritySettings)
    (now today : Int) (st : LoopState) (a : Assignment) : LoopState :=
  match courses.find? (fun c => c.id == a.courseId) with
  | none => { st with skipped := st.skipped + 1 }
  | some course =>
    match course.todoistProjectId with
    | none => { st with skipped := st.skipped + 1 }
    | some proj =>
      if proj = "" then { st with skipped := st.skipped + 1 }
      else
        match a.todoistTaskId with
        | none =>
          match lookupKey st.index (makeTaskKey proj a.name) with
          | some tid =>
            if updateOk st.env tid then
              { st with
                env := updateRemote st.env tid (assignPriority ns today a) a.dueDate
                db := updateAssignmentRow st.db a.id (fun r =>
                  { r with todoistTaskId := some tid, lastSyncedAt := some now })
                skipped := st.skipped + 1
                events := st.events ++ [SyncEvent.destCall true] }
            else
              { st with events := st.events ++ [SyncEvent.destCall false] }
          | none =>
            if st.env.createFails proj a.name then
              { st with
                skipped := st.skipped + 1
                events := st.events ++ [SyncEvent.destCall false] }
            else
              { st with
                env := (createRemote st.env proj a.name (assignPriority ns today a) a.dueDate).2
                db := updateAssignmentRow st.db a.id (fun x =>
                  { x with
                    todoistTaskId := some (createRemote st.env proj a.name (assignPriority ns today a) a.dueDate).1
                    lastSyncedAt := some now })
                index := setKey st.index (makeTaskKey proj a.name)
                  (createRemote st.env proj a.name (assignPriority ns today a) a.dueDate).1
                created := st.created + 1
                events := st.events ++ [SyncEvent.destCall true] }
        | some tid =>
          if updateOk st.env tid then
            { st with
              env := updateRemote st.env tid (assignPriority ns today a) a.dueDate
              db := updateAssignmentRow st.db a.id (fun r =>
                { r with lastSyncedAt := some now })
              events := st.events ++ [SyncEvent.destCall true] }
          else
            { st with
              db := updateAssignmentRow st.db a.id (fun r =>
                { r with todoistTaskId := none, lastSyncedAt := some now })
              skipped := st.skipped + 1
              events := st.events ++ [SyncEvent.destCall false] }

/-- The whole per-assignment loop. -/
def processAll (courses : List Course) (ns : NormalizedPrioritySettings)
    (now today : Int) (st : LoopState) (as : List Assignment) : LoopState :=
  as.foldl (processOne courses ns now today) st

/-- Result value of a run. -/
structure SyncResult where
  created : Nat
  skipped : Nat
deriving DecidableEq, Repr

/-- Full outcome of one invocation: the returned or thrown value, the
store and destination states after it, and the observable events. -/
structure SyncOutcome where
  result : Except String SyncResult
  db : Db
  env : TodoistEnv
  events : List SyncEvent

/-- Message the run record starts with. -/
def startMsg (n : Nat) : String :=
  "Starting sync for " ++ toString n ++ " course(s)."

/-- Message a successful run record ends with. -/
def successMsg (c s : Nat) : String :=
  "Created " ++ toString c ++ " task(s), skipped " ++ toString s ++ "."

/-- Message standing for the description of the modelled unexpected
store failure. -/
def storeErrorMsg : String :=
  "Store failure while loading assignments"

/-- Finalize the run record with the given id. -/
def finalizeSyncRun (db : Db) (runId : Nat) (stt : SyncStatus) (msg : String)
    (now : Int) : Db :=
  { db with syncRuns := db.syncRuns.map (fun r =>
      if r.id = runId then { r with status := stt, message := msg, finishedAt := some now } else r) }

/-- Translation of syncAssignmentsToTodoist.  An empty course-id list
returns immediately; a missing destination configuration throws; both
happen before any SyncRun record exists.  Otherwise a RUNNING SyncRun
record is created, the in-scope courses are selected, the trivial
empty-scope case finalizes SUCCESS at once, the modelled unexpected
store failure finalizes ERROR and rethrows, and the normal path builds
the index, folds the loop over the assignment snapshot and finalizes
SUCCESS with the created and skipped counts. -/
def syncAssignmentsToTodoist (userId : String) (courseIds : List String)
    (prioritySettings : Option PrioritySettingsInput)
    (db : Db) (env : TodoistEnv) (now today : Int) : SyncOutcome :=
  if courseIds.isEmpty then
    { result := .ok { created := 0, skipped := 0 }, db := db, env := env, events := [] }
  else if !(db.configuredUsers.contains userId) then
    { result := .error "Todoist configuration not found. Please save your Todoist token first."
      db := db, env := env, events := [] }
  else
    let ns := normalizePrioritySettings prioritySettings
    let runId := db.nextRunId
    let db1 : Db :=
      { db with
        syncRuns := db.syncRuns ++
          [{ id := runId, userId := userId, status := .RUNNING
             message := startMsg courseIds.length, finishedAt := none }]
        nextRunId := runId + 1 }
    let ev0 : List SyncEvent := [SyncEvent.createRun .RUNNING]
    let courses := scopedCourses db userId courseIds
    if courses.isEmpty then
      { result := .ok { created := 0, skipped := 0 }
        db := finalizeSyncRun db1 runId .SUCCESS (successMsg 0 0) now
        env := env
        events := ev0 ++ [SyncEvent.finalizeRun .SUCCESS (successMsg 0 0)] }
    else if db.storeFails then
      { result := .error storeErrorMsg
        db := finalizeSyncRun db1 runId .ERROR storeErrorMsg now
        env := env
        events := ev0 ++ [SyncEvent.finalizeRun .ERROR storeErrorMsg] }
    else
      let snapshot := scopedAssignments db courses
      let bi := buildIndex env (projectIdsOf courses)
      let st0 : LoopState :=
        { db := db1, env := env, index := bi.1, created := 0, skipped := 0
          events := ev0 ++ bi.2 }
      let stF := processAll courses ns now today st0 snapshot
      { result := .ok { created := stF.created, skipped := stF.skipped }
        db := finalizeSyncRun stF.db runId .SUCCESS (successMsg stF.created stF.skipped) now
        env := stF.env
        events := stF.events ++ [SyncEvent.finalizeRun .SUCCESS (successMsg stF.created stF.skipped)] }

/-- SyncRun record as created at the start of a run. -/
def runningRecord (db : Db) (userId : String) (courseIds : List String) : SyncRun :=
  { id := db.nextRunId, userId := userId, status := .RUNNING
    message := startMsg courseIds.length, finishedAt := none }

/-- Store state right after the RUNNING record has been created. -/
def dbWithRun (db : Db) (userId : String) (courseIds : List String) : Db :=
  { db with
    syncRuns := db.syncRuns ++ [runningRecord db userId courseIds]
    nextRunId := db.nextRunId + 1 }

/-- Loop state at the end of the main branch of a run: index built, loop
folded over the assignment snapshot. -/
def mainRun (userId : String) (courseIds : List String) (ps : Option PrioritySettingsInput)
    (db : Db) (env : TodoistEnv) (now today : Int) : LoopState :=
  processAll (scopedCourses db userId courseIds) (normalizePrioritySettings ps) now today
    { db := dbWithRun db userId courseIds
      env := env
      index := (buildIndex env (projectIdsOf (scopedCourses db userId courseIds))).1
      created := 0
      skipped := 0
      events := [SyncEvent.createRun .RUNNING] ++
        (buildIndex env (projectIdsOf (scopedCourses db userId courseIds))).2 }
    (scopedAssignments db (scopedCourses db userId courseIds))

/-- Recognizer for run-creation events. -/
def isCreateEv : SyncEvent → Bool
  | .createRun _ => true
  | _ => false

/-- Recognizer for run-finalization events. -/
def isFinalizeEv : SyncEvent → Bool
  | .finalizeRun _ _ => true
  | _ => false

/-! ## Concrete fixtures used by counterexamples and witnesses -/

/-- Destination environment in which every call succeeds. -/
def envNoFail : TodoistEnv :=
  { tasks := [], nextId := 0
    listFails := fun _ => false, updateFails := fun _ => false, createFails := fun _ _ => false }

/-- A course of user u mapped to destination project P. -/
def courseU : Course :=
  { id := "c1", userId := "u", todoistProjectId := some "P" }

/-- Store for user u holding the course and the given assignments. -/
def dbFor (asg : List Assignment) : Db :=
  { configuredUsers := ["u"], courses := [courseU], assignments := asg
    syncRuns := [], nextRunId := 0, storeFails := false }

/-- Environment of the idempotence counterexample: listing project P
fails persistently, and updates of the first freshly created task fail
persistently. -/
def envC1 : TodoistEnv :=
  { tasks := [], nextId := 0
    listFails := fun p => p == "P"
    updateFails := fun t => t == "new0"
    createFails := fun _ _ => false }

/-- Two unlinked assignments with the same title in the same course. -/
def dbC1 : Db :=
  dbFor [{ id := "a1", courseId := "c1", name := "T", dueDate := none
           todoistTaskId := none, lastSyncedAt := none },
         { id := "a2", courseId := "c1", name := "T", dueDate := none
           todoistTaskId := none, lastSyncedAt := none }]

/-- First run of the idempotence counterexample. -/
def runC1a : SyncOutcome :=
  syncAssignmentsToTodoist "u" ["c1"] none dbC1 envC1 0 0

/-- Second run of the idempotence counterexample, on the untouched
output state of the first. -/
def runC1b : SyncOutcome :=
  syncAssignmentsToTodoist "u" ["c1"] none runC1a.db runC1a.env 1 0

/-- Environment of the failed-relink scenario: project P already holds
a task titled T, and updating that task fails. -/
def envC3 : TodoistEnv :=
  { tasks := [{ id := "t1", content := "T", projectId := "P", priority := 1, due := none }]
    nextId := 0
    listFails := fun _ => false
    updateFails := fun t => t == "t1"
    createFails := fun _ _ => false }

/-- One unlinked assignment titled T. -/
def dbC3 : Db :=
  dbFor [{ id := "a1", courseId := "c1", name := "T", dueDate := none
           todoistTaskId := none, lastSyncedAt := none }]

/-- The failed-relink run. -/
def runC3 : SyncOutcome :=
  syncAssignmentsToTodoist "u" ["c1"] none dbC3 envC3 0 0

/-- Destination environment of the relink witness: project P holds a
task titled T and every call succeeds. -/
def envC4 : TodoistEnv :=
  { tasks := [{ id := "t1", content := "T", projectId := "P", priority := 1, due := none }]
    nextId := 0
    listFails := fun _ => false
    updateFails := fun _ => false
    createFails := fun _ _ => false }

/-- Unlinked assignment titled T used by the relink witness. -/
def aC4 : Assignment :=
  { id := "a1", courseId := "c1", name := "T", dueDate := none
    todoistTaskId := none, lastSyncedAt := none }

/-- Loop state of the relink witness: the index already maps the key of
project P and title T to task t1. -/
def stC4 : LoopState :=
  { db := dbFor [aC4], env := envC4, index := [("P::T", "t1")]
    created := 0, skipped := 0, events := [] }

/-- One unlinked assignment for the idempotence witness. -/
def dbW : Db :=
  dbFor [{ id := "a1", courseId := "c1", name := "T", dueDate := none
           todoistTaskId := none, lastSyncedAt := none }]

/-! ## Helper lemmas -/

/-- Closed form of clampDay. -/
theorem clampDay_eq (x : Int) : clampDay x = max 1 (min x 5) := by
  unfold clampDay
  split_ifs <;> omega

/-- Range of clampDay. -/
theorem clampDay_bounds (x : Int) : 1 ≤ clampDay x ∧ clampDay x ≤ 5 := by
  rw [clampDay_eq]
  omega

/-- Monotonicity chain produced by the threshold-correction steps of
the normalization. -/
theorem normalize_chain (c1 c2 c3 : Int)
    (h1 : 1 ≤ c1 ∧ c1 ≤ 5) (h2 : 1 ≤ c2 ∧ c2 ≤ 5) (h3 : 1 ≤ c3 ∧ c3 ≤ 5) :
    1 ≤ c1 ∧
    c1 ≤ (if c2 < c1 then clampDay (c1 + 1) else c2) ∧
    (if c2 < c1 then clampDay (c1 + 1) else c2) ≤
      (if c3 < (if c2 < c1 then clampDay (c1 + 1) else c2) then
        clampDay ((if c2 < c1 then clampDay (c1 + 1) else c2) + 1) else c3) ∧
    (if c3 < (if c2 < c1 then clampDay (c1 + 1) else c2) then
        clampDay ((if c2 < c1 then clampDay (c1 + 1) else c2) + 1) else c3) ≤ 5 := by
  by_cases hA : c2 < c1 <;>
    simp only [hA, if_true, if_false] <;>
    split_ifs <;>
    simp only [clampDay_eq] at * <;>
    omega

/-! ## Claims about the priority classifier and the window filter -/

/-- C6: the bucket classification of the sync loop agrees with the
reference definition written from the specification, for every bucket
configuration and every due date: null gives B4, a difference of at
most zero gives B1 unconditionally, and otherwise the difference
clamped to one through five is compared against the three thresholds in
order. -/
theorem claim_C6 (s : NormalizedPrioritySettings) (due : Option Int) (today : Int) :
    classifyBucket due today s = classifyBucketSpec due today s := by
  cases due with
  | none => rfl
  | some d =>
    unfold classifyBucket classifyBucketSpec computeConceptualBucket
    by_cases h : d - today ≤ 0
    · simp [h]
    · have hd : clampDay (if d - today > 5 then 5 else d - today) =
          max 1 (min (d - today) 5) := by
        unfold clampDay
        split_ifs <;> omega
      simp only [h, if_false, hd]

/-- C7: the resolved destination priority is the configured level of
the first enabled bucket in the scan sequence that starts at the
classified bucket, walks toward B1 and then walks toward B4, so it is
never taken from a disabled bucket; when every bucket is disabled the
fixed fallback level 2 is returned.  The scan sequence is captured by
scanRank: the chosen bucket is enabled and minimizes scanRank among the
enabled buckets. -/
theorem claim_C7 (s : NormalizedPrioritySettings) (bucket : PriorityKey) :
    ((∀ k, enabledAt s k = false) ∧ bucketToTodoistPriority bucket s = 2) ∨
    (∃ k, enabledAt s k = true ∧
      bucketToTodoistPriority bucket s = priAt s k ∧
      ∀ j, enabledAt s j = true → scanRank bucket k ≤ scanRank bucket j) := by
  cases bucket <;>
    cases e1 : s.rp1.enabled <;> cases e2 : s.rp2.enabled <;>
    cases e3 : s.rp3.enabled <;> cases e4 : s.rp4.enabled <;>
  first
  | (left
     refine ⟨?_, ?_⟩
     · intro k
       cases k <;> simp [enabledAt, NormalizedPrioritySettings.ranges, e1, e2, e3, e4]
     · simp [bucketToTodoistPriority, NormalizedPrioritySettings.ranges, e1, e2, e3, e4])
  | (right
     refine ⟨.p1, ?_, ?_, ?_⟩
     · simp [enabledAt, NormalizedPrioritySettings.ranges, e1]
     · simp [bucketToTodoistPriority, priAt, NormalizedPrioritySettings.ranges, e1, e2, e3, e4]
     · intro j hj
       cases j <;> simp_all [enabledAt, NormalizedPrioritySettings.ranges, scanRank, pIdx])
  | (right
     refine ⟨.p2, ?_, ?_, ?_⟩
     · simp [enabledAt, NormalizedPrioritySettings.ranges, e2]
     · simp [bucketToTodoistPriority, priAt, NormalizedPrioritySettings.ranges, e1, e2, e3, e4]
     · intro j hj
       cases j <;> simp_all [enabledAt, NormalizedPrioritySettings.ranges, scanRank, pIdx])
  | (right
     refine ⟨.p3, ?_, ?_, ?_⟩
     · simp [enabledAt, NormalizedPrioritySettings.ranges, e3]
     · simp [bucketToTodoistPriority, priAt, NormalizedPrioritySettings.ranges, e1, e2, e3, e4]
     · intro j hj
       cases j <;> simp_all [enabledAt, NormalizedPrioritySettings.ranges, scanRank, pIdx])
  | (right
     refine ⟨.p4, ?_, ?_, ?_⟩
     · simp [enabledAt, NormalizedPrioritySettings.ranges, e4]
     · simp [bucketToTodoistPriority, priAt, NormalizedPrioritySettings.ranges, e1, e2, e3, e4]
     · intro j hj
       cases j <;> simp_all [enabledAt, NormalizedPrioritySettings.ranges, scanRank, pIdx])

/-- C8: after normalization the thresholds satisfy one at most t1, t1
at most t2, t2 at most t3, t3 at most five, the fourth threshold is the
five-or-more sentinel, and the thresholds are established independently
of the enabled flags: two inputs with the same threshold fields
normalize to the same thresholds whatever their enabled or priority
fields are. -/
theorem claim_C8 (ps qs : Option PrioritySettingsInput)
    (h1 : inputTo ps PrioritySettingsInput.p1 = inputTo qs PrioritySettingsInput.p1)
    (h2 : inputTo ps PrioritySettingsInput.p2 = inputTo qs PrioritySettingsInput.p2)
    (h3 : inputTo ps PrioritySettingsInput.p3 = inputTo qs PrioritySettingsInput.p3) :
    (1 ≤ (normalizePrioritySettings ps).rp1.toBound ∧
     (normalizePrioritySettings ps).rp1.toBound ≤ (normalizePrioritySettings ps).rp2.toBound ∧
     (normalizePrioritySettings ps).rp2.toBound ≤ (normalizePrioritySettings ps).rp3.toBound ∧
     (normalizePrioritySettings ps).rp3.toBound ≤ 5 ∧
     (normalizePrioritySettings ps).rp4.toBound = 5) ∧
    ((normalizePrioritySettings ps).rp1.toBound = (normalizePrioritySettings qs).rp1.toBound ∧
     (normalizePrioritySettings ps).rp2.toBound = (normalizePrioritySettings qs).rp2.toBound ∧
     (normalizePrioritySettings ps).rp3.toBound = (normalizePrioritySettings qs).rp3.toBound ∧
     (normalizePrioritySettings ps).rp4.toBound = (normalizePrioritySettings qs).rp4.toBound) := by
  unfold inputTo at h1 h2 h3
  unfold normalizePrioritySettings
  constructor
  · dsimp only
    obtain ⟨g1, g2, g3, g4⟩ :=
      normalize_chain _ _ _ (clampDay_bounds _) (clampDay_bounds _) (clampDay_bounds _)
    exact ⟨g1, g2, g3, g4, rfl⟩
  · dsimp only
    rw [h1, h2, h3]
    exact ⟨rfl, rfl, rfl, rfl⟩

/-- C8 witness: the trivial all-default input satisfies the hypotheses
against itself, and the conclusions evaluate. -/
theorem claim_C8_witness :
    (1 ≤ (normalizePrioritySettings none).rp1.toBound ∧
     (normalizePrioritySettings none).rp1.toBound ≤ (normalizePrioritySettings none).rp2.toBound ∧
     (normalizePrioritySettings none).rp2.toBound ≤ (normalizePrioritySettings none).rp3.toBound ∧
     (normalizePrioritySettings none).rp3.toBound ≤ 5 ∧
     (normalizePrioritySettings none).rp4.toBound = 5) ∧
    ((normalizePrioritySettings none).rp1.toBound = (normalizePrioritySettings none).rp1.toBound ∧
     (normalizePrioritySettings none).rp2.toBound = (normalizePrioritySettings none).rp2.toBound ∧
     (normalizePrioritySettings none).rp3.toBound = (normalizePrioritySettings none).rp3.toBound ∧
     (normalizePrioritySettings none).rp4.toBound = (normalizePrioritySettings none).rp4.toBound) :=
  claim_C8 none none rfl rfl rfl

/-- C9 counterexample: the fetch cycle treats a non-positive look-ahead
value as no bound at all, so with look-ahead zero an assignment due
three days out is kept, while the claimed contract excludes it. -/
theorem claim_C9_counterexample :
    keepAssignment (some 3) 0 (some 0) true = true ∧
    isInScopeSpec (some 3) 0 (some 0) true = false := by
  decide

/-- C9 as amended: when the look-ahead parameter is null or positive,
the per-assignment filtering of the fetch cycle realizes the claimed
window contract exactly: undated kept iff includeNoDueDate, past-due
excluded, null look-ahead unbounded, otherwise kept iff the day
difference is at most the look-ahead.  A non-positive look-ahead is
instead treated by the code as null. -/
theorem claim_C9 (due : Option Int) (today : Int) (daysAhead : Option Int)
    (includeNoDueDate : Bool)
    (h : ∀ d, daysAhead = some d → 0 < d) :
    keepAssignment due today daysAhead includeNoDueDate =
      isInScopeSpec due today daysAhead includeNoDueDate := by
  cases daysAhead with
  | none => rfl
  | some d =>
    have hd : d > 0 := h d rfl
    cases due with
    | none => rfl
    | some x =>
      unfold keepAssignment isInScopeSpec
      simp [hd]

/-- C9 witness: a concrete positive look-ahead instance. -/
theorem claim_C9_witness :
    keepAssignment (some 2) 0 (some 7) false = isInScopeSpec (some 2) 0 (some 7) false :=
  claim_C9 (some 2) 0 (some 7) false (by intro d hd; cases hd; omega)

/-! ## Case analysis of one loop iteration -/

/-- Exhaustive case analysis of processOne: exactly one of the seven
branches of the loop body applies, and in each case the resulting state
is given explicitly. -/
theorem processOne_spec (courses : List Course) (ns : NormalizedPrioritySettings)
    (now today : Int) (st : LoopState) (a : Assignment) :
    (effectiveProject courses a = none ∧
      processOne courses ns now today st a = { st with skipped := st.skipped + 1 }) ∨
    (∃ proj tid, effectiveProject courses a = some proj ∧ a.todoistTaskId = none ∧
      lookupKey st.index (makeTaskKey proj a.name) = some tid ∧ updateOk st.env tid = true ∧
      processOne courses ns now today st a =
        { st with
          env := updateRemote st.env tid (assignPriority ns today a) a.dueDate
          db := updateAssignmentRow st.db a.id (fun r =>
            { r with todoistTaskId := some tid, lastSyncedAt := some now })
          skipped := st.skipped + 1
          events := st.events ++ [SyncEvent.destCall true] }) ∨
    (∃ proj tid, effectiveProject courses a = some proj ∧ a.todoistTaskId = none ∧
      lookupKey st.index (makeTaskKey proj a.name) = some tid ∧ updateOk st.env tid = false ∧
      processOne courses ns now today st a =
        { st with events := st.events ++ [SyncEvent.destCall false] }) ∨
    (∃ proj, effectiveProject courses a = some proj ∧ a.todoistTaskId = none ∧
      lookupKey st.index (makeTaskKey proj a.name) = none ∧
      st.env.createFails proj a.name = true ∧
      processOne courses ns now today st a =
        { st with
          skipped := st.skipped + 1
          events := st.events ++ [SyncEvent.destCall false] }) ∨
    (∃ proj, effectiveProject courses a = some proj ∧ a.todoistTaskId = none ∧
      lookupKey st.index (makeTaskKey proj a.name) = none ∧
      st.env.createFails proj a.name = false ∧
      processOne courses ns now today st a =
        { st with
          env := (createRemote st.env proj a.name (assignPriority ns today a) a.dueDate).2
          db := updateAssignmentRow st.db a.id (fun x =>
            { x with
              todoistTaskId := some (createRemote st.env proj a.name (assignPriority ns today a) a.dueDate).1
              lastSyncedAt := some now })
          index := setKey st.index (makeTaskKey proj a.name)
            (createRemote st.env proj a.name (assignPriority ns today a) a.dueDate).1
          created := st.created + 1
          events := st.events ++ [SyncEvent.destCall true] }) ∨
    (∃ proj tid, effectiveProject courses a = some proj ∧ a.todoistTaskId = some tid ∧
      updateOk st.env tid = true ∧
      processOne courses ns now today st a =
        { st with
          env := updateRemote st.env tid (assignPriority ns today a) a.dueDate
          db := updateAssignmentRow st.db a.id (fun r => { r with lastSyncedAt := some now })
          events := st.events ++ [SyncEvent.destCall true] }) ∨
    (∃ proj tid, effectiveProject courses a = some proj ∧ a.todoistTaskId = some tid ∧
      updateOk st.env tid = false ∧
      processOne courses ns now today st a =
        { st with
          db := updateAssignmentRow st.db a.id (fun r =>
            { r with todoistTaskId := none, lastSyncedAt := some now })
          skipped := st.skipped + 1
          events := st.events ++ [SyncEvent.destCall false] }) := by
  rcases hf : courses.find? (fun c => c.id == a.courseId) with _ | course
  · left
    refine ⟨?_, ?_⟩
    · simp only [effectiveProject, hf]
    · simp only [processOne, hf]
  · rcases hp : course.todoistProjectId with _ | proj
    · left
      refine ⟨?_, ?_⟩
      · simp only [effectiveProject, hf, hp]
      · simp only [processOne, hf, hp]
    · by_cases hpe : proj = ""
      · left
        refine ⟨?_, ?_⟩
        · simp only [effectiveProject, hf, hp, hpe, if_true]
        · simp only [processOne, hf, hp, hpe, if_true]
      · have heff : effectiveProject courses a = some proj := by
          simp only [effectiveProject, hf, hp, if_neg hpe]
        rcases hl : a.todoistTaskId with _ | tid
        · rcases hk : lookupKey st.index (makeTaskKey proj a.name) with _ | tid
          · by_cases hc : st.env.createFails proj a.name
            · refine .inr (.inr (.inr (.inl ⟨proj, heff, rfl, hk, hc, ?_⟩)))
              simp [processOne, hf, hp, hpe, hl, hk, hc]
            · refine .inr (.inr (.inr (.inr (.inl
                ⟨proj, heff, rfl, hk, Bool.eq_false_iff.mpr hc, ?_⟩))))
              simp [processOne, hf, hp, hpe, hl, hk, hc]
          · by_cases hu : updateOk st.env tid
            · refine .inr (.inl ⟨proj, tid, heff, rfl, hk, hu, ?_⟩)
              simp [processOne, hf, hp, hpe, hl, hk, hu]
            · refine .inr (.inr (.inl ⟨proj, tid, heff, rfl, hk, Bool.eq_false_iff.mpr hu, ?_⟩))
              simp [processOne, hf, hp, hpe, hl, hk, hu]
        · by_cases hu : updateOk st.env tid
          · refine .inr (.inr (.inr (.inr (.inr (.inl ⟨proj, tid, heff, rfl, hu, ?_⟩)))))
            simp [processOne, hf, hp, hpe, hl, hu]
          · refine .inr (.inr (.inr (.inr (.inr (.inr
              ⟨proj, tid, heff, rfl, Bool.eq_false_iff.mpr hu, ?_⟩)))))
            simp [processOne, hf, hp, hpe, hl, hu]

/-! ## Loop infrastructure lemmas -/

theorem processAll_nil (courses : List Course) (ns : NormalizedPrioritySettings)
    (now today : Int) (st : LoopState) :
    processAll courses ns now today st [] = st := rfl

theorem processAll_cons (courses : List Course) (ns : NormalizedPrioritySettings)
    (now today : Int) (st : LoopState) (a : Assignment) (as : List Assignment) :
    processAll courses ns now today st (a :: as) =
      processAll courses ns now today (processOne courses ns now today st a) as := rfl

theorem applyRow_cons (r : Assignment) (t : List Assignment) (x : String)
    (f : Assignment → Assignment) :
    applyRow (r :: t) x f = (if r.id = x then f r else r) :: applyRow t x f := rfl

theorem mem_applyRow {l : List Assignment} {x : String} {f : Assignment → Assignment}
    {r1 : Assignment} (h : r1 ∈ applyRow l x f) :
    ∃ r0, r0 ∈ l ∧ r1 = if r0.id = x then f r0 else r0 := by
  unfold applyRow at h
  obtain ⟨r0, hr0, he⟩ := List.mem_map.mp h
  exact ⟨r0, hr0, he.symm⟩

theorem applyRow_filter {l : List Assignment} {x y : String} {f : Assignment → Assignment}
    (hxy : y ≠ x) (hf : ∀ r, (f r).id = r.id) :
    (applyRow l x f).filter (fun r => r.id == y) = l.filter (fun r => r.id == y) := by
  induction l with
  | nil => rfl
  | cons r t ih =>
    rw [applyRow_cons]
    by_cases hx : r.id = x
    · have h1 : ((f r).id == y) = false := by
        rw [hf r, hx]
        exact beq_eq_false_iff_ne.mpr (fun hh => hxy hh.symm)
      have h2 : (r.id == y) = false := by
        rw [hx]
        exact beq_eq_false_iff_ne.mpr (fun hh => hxy hh.symm)
      rw [if_pos hx]
      simp [List.filter_cons, h1, h2, ih]
    · rw [if_neg hx]
      by_cases hy2 : (r.id == y) = true
      · simp [List.filter_cons, hy2, ih]
      · simp [List.filter_cons, hy2, ih]

theorem updateRemote_keys (env : TodoistEnv) (tid : String) (pri : Nat) (due : Option Int) :
    (updateRemote env tid pri due).tasks.map keyOf = env.tasks.map keyOf := by
  unfold updateRemote
  simp only [List.map_map]
  apply List.map_congr_left
  intro t _
  by_cases h : t.id = tid <;> simp [keyOf, makeTaskKey, h, Function.comp]

theorem lookupKey_append (m1 m2 : List (String × String)) (k : String) :
    lookupKey (m1 ++ m2) k = (lookupKey m1 k).or (lookupKey m2 k) := by
  unfold lookupKey
  rw [List.find?_append]
  cases h : List.find? (fun e => e.1 = k) m1 <;> simp [h, Option.or]

theorem setKey_absent (m : List (String × String)) (k v : String)
    (h : lookupKey m k = none) : setKey m k v = m ++ [(k, v)] := by
  have h2 : m.find? (fun e => e.1 = k) = none := by
    rcases hf : m.find? (fun e => e.1 = k) with _ | e
    · exact hf
    · unfold lookupKey at h
      rw [hf] at h
      simp at h
  simp [setKey, h2]

theorem lookupKey_setKey_absent (m : List (String × String)) (k v k2 : String)
    (h : lookupKey m k = none) :
    lookupKey (setKey m k v) k2 = if k2 = k then some v else lookupKey m k2 := by
  rw [setKey_absent m k v h, lookupKey_append]
  by_cases h2 : k2 = k
  · rw [if_pos h2]
    subst h2
    rw [h]
    simp [lookupKey, Option.or]
  · rw [if_neg h2]
    have h3 : lookupKey [(k, v)] k2 = none := by
      simp [lookupKey, show ¬ k = k2 from fun hh => h2 hh.symm]
    rw [h3]
    cases h4 : lookupKey m k2 <;> simp [Option.or]

theorem processOne_events (courses : List Course) (ns : NormalizedPrioritySettings)
    (now today : Int) (st : LoopState) (a : Assignment) :
    ∃ δ, (processOne courses ns now today st a).events = st.events ++ δ ∧
      ∀ e ∈ δ, ∃ b, e = SyncEvent.destCall b := by
  rcases processOne_spec courses ns now today st a with ⟨_, he⟩ |
    ⟨p, t, _, _, _, _, he⟩ | ⟨p, t, _, _, _, _, he⟩ |
    ⟨p, _, _, _, _, he⟩ | ⟨p, _, _, _, _, he⟩ |
    ⟨p, t, _, _, _, he⟩ | ⟨p, t, _, _, _, he⟩ <;>
  rw [he] <;>
  first
    | exact ⟨[], (List.append_nil _).symm, fun e he2 => absurd he2 (List.not_mem_nil e)⟩
    | exact ⟨[SyncEvent.destCall true], rfl, fun e he2 => ⟨true, List.mem_singleton.mp he2⟩⟩
    | exact ⟨[SyncEvent.destCall false], rfl, fun e he2 => ⟨false, List.mem_singleton.mp he2⟩⟩

theorem processAll_events (courses : List Course) (ns : NormalizedPrioritySettings)
    (now today : Int) (as : List Assignment) :
    ∀ st, ∃ δ, (processAll courses ns now today st as).events = st.events ++ δ ∧
      ∀ e ∈ δ, ∃ b, e = SyncEvent.destCall b := by
  induction as with
  | nil =>
    intro st
    exact ⟨[], (List.append_nil _).symm, fun e he => absurd he (List.not_mem_nil e)⟩
  | cons a t ih =>
    intro st
    obtain ⟨δ1, h1, h1b⟩ := processOne_events courses ns now today st a
    obtain ⟨δ2, h2, h2b⟩ := ih (processOne courses ns now today st a)
    refine ⟨δ1 ++ δ2, ?_, ?_⟩
    · rw [processAll_cons, h2, h1, List.append_assoc]
    · intro e he
      rcases List.mem_append.mp he with h | h
      · exact h1b e h
      · exact h2b e h

theorem processOne_db_misc (courses : List Course) (ns : NormalizedPrioritySettings)
    (now today : Int) (st : LoopState) (a : Assignment) :
    (processOne courses ns now today st a).db.configuredUsers = st.db.configuredUsers ∧
    (processOne courses ns now today st a).db.courses = st.db.courses ∧
    (processOne courses ns now today st a).db.syncRuns = st.db.syncRuns ∧
    (processOne courses ns now today st a).db.nextRunId = st.db.nextRunId ∧
    (processOne courses ns now today st a).db.storeFails = st.db.storeFails := by
  rcases processOne_spec courses ns now today st a with ⟨_, he⟩ |
    ⟨p, t, _, _, _, _, he⟩ | ⟨p, t, _, _, _, _, he⟩ |
    ⟨p, _, _, _, _, he⟩ | ⟨p, _, _, _, _, he⟩ |
    ⟨p, t, _, _, _, he⟩ | ⟨p, t, _, _, _, he⟩ <;>
  rw [he] <;>
  exact ⟨rfl, rfl, rfl, rfl, rfl⟩

theorem processAll_db_misc (courses : List Course) (ns : NormalizedPrioritySettings)
    (now today : Int) (as : List Assignment) :
    ∀ st,
    (processAll courses ns now today st as).db.configuredUsers = st.db.configuredUsers ∧
    (processAll courses ns now today st as).db.courses = st.db.courses ∧
    (processAll courses ns now today st as).db.syncRuns = st.db.syncRuns ∧
    (processAll courses ns now today st as).db.nextRunId = st.db.nextRunId ∧
    (processAll courses ns now today st as).db.storeFails = st.db.storeFails := by
  induction as with
  | nil => intro st; exact ⟨rfl, rfl, rfl, rfl, rfl⟩
  | cons a t ih =>
    intro st
    obtain ⟨i1, i2, i3, i4, i5⟩ := ih (processOne courses ns now today st a)
    obtain ⟨j1, j2, j3, j4, j5⟩ := processOne_db_misc courses ns now today st a
    rw [processAll_cons]
    exact ⟨i1.trans j1, i2.trans j2, i3.trans j3, i4.trans j4, i5.trans j5⟩

theorem processOne_no_create (courses : List Course) (ns : NormalizedPrioritySettings)
    (now today : Int) (st : LoopState) (a : Assignment)
    (h : a.todoistTaskId ≠ none ∨ effectiveProject courses a = none) :
    (processOne courses ns now today st a).created = st.created := by
  rcases processOne_spec courses ns now today st a with ⟨_, he⟩ |
    ⟨p, t, hp, hl, _, _, he⟩ | ⟨p, t, hp, hl, _, _, he⟩ |
    ⟨p, hp, hl, _, _, he⟩ | ⟨p, hp, hl, _, _, he⟩ |
    ⟨p, t, hp, hl, _, he⟩ | ⟨p, t, hp, hl, _, he⟩
  · rw [he]
  · rw [he]
  · rw [he]
  · rw [he]
  · rcases h with h | h
    · exact absurd hl h
    · rw [hp] at h
      simp at h
  · rw [he]
  · rw [he]

theorem processAll_no_create (courses : List Course) (ns : NormalizedPrioritySettings)
    (now today : Int) (as : List Assignment) :
    ∀ st, (∀ a ∈ as, a.todoistTaskId ≠ none ∨ effectiveProject courses a = none) →
    (processAll courses ns now today st as).created = st.created := by
  induction as with
  | nil => intro st _; rfl
  | cons a t ih =>
    intro st h
    rw [processAll_cons]
    rw [ih (processOne courses ns now today st a) (fun x hx => h x (List.mem_cons_of_mem a hx))]
    exact processOne_no_create courses ns now today st a (h a (List.mem_cons_self a t))

theorem processOne_frame (courses : List Course) (ns : NormalizedPrioritySettings)
    (now today : Int) (st : LoopState) (a : Assignment) (y : String) (hy : y ≠ a.id) :
    (processOne courses ns now today st a).db.assignments.filter (fun r => r.id == y) =
      st.db.assignments.filter (fun r => r.id == y) := by
  rcases processOne_spec courses ns now today st a with ⟨_, he⟩ |
    ⟨p, t, _, _, _, _, he⟩ | ⟨p, t, _, _, _, _, he⟩ |
    ⟨p, _, _, _, _, he⟩ | ⟨p, _, _, _, _, he⟩ |
    ⟨p, t, _, _, _, he⟩ | ⟨p, t, _, _, _, he⟩ <;>
  rw [he] <;>
  first
    | rfl
    | exact applyRow_filter hy (fun r => rfl)

theorem processAll_frame (courses : List Course) (ns : NormalizedPrioritySettings)
    (now today : Int) (as : List Assignment) :
    ∀ st (y : String), y ∉ as.map (fun x => x.id) →
    (processAll courses ns now today st as).db.assignments.filter (fun r => r.id == y) =
      st.db.assignments.filter (fun r => r.id == y) := by
  induction as with
  | nil => intro st y _; rfl
  | cons a t ih =>
    intro st y hy
    simp only [List.map_cons, List.mem_cons, not_or] at hy
    rw [processAll_cons, ih _ y hy.2]
    exact processOne_frame courses ns now today st a y hy.1

theorem processOne_origin (courses : List Course) (ns : NormalizedPrioritySettings)
    (now today : Int) (st : LoopState) (a : Assignment) :
    ∀ r1 ∈ (processOne courses ns now today st a).db.assignments,
      ∃ r0, r0 ∈ st.db.assignments ∧ r1.id = r0.id ∧ r1.courseId = r0.courseId := by
  rcases processOne_spec courses ns now today st a with ⟨_, he⟩ |
    ⟨p, t, _, _, _, _, he⟩ | ⟨p, t, _, _, _, _, he⟩ |
    ⟨p, _, _, _, _, he⟩ | ⟨p, _, _, _, _, he⟩ |
    ⟨p, t, _, _, _, he⟩ | ⟨p, t, _, _, _, he⟩ <;>
  rw [he] <;>
  intro r1 hr1 <;>
  first
    | exact ⟨r1, hr1, rfl, rfl⟩
    | (obtain ⟨r0, hr0, he0⟩ := mem_applyRow hr1
       by_cases h0 : r0.id = a.id
       · rw [if_pos h0] at he0
         refine ⟨r0, hr0, ?_, ?_⟩ <;> rw [he0]
       · rw [if_neg h0] at he0
         refine ⟨r0, hr0, ?_, ?_⟩ <;> rw [he0])

theorem processAll_origin (courses : List Course) (ns : NormalizedPrioritySettings)
    (now today : Int) (as : List Assignment) :
    ∀ st, ∀ r1 ∈ (processAll courses ns now today st as).db.assignments,
      ∃ r0, r0 ∈ st.db.assignments ∧ r1.id = r0.id ∧ r1.courseId = r0.courseId := by
  induction as with
  | nil => intro st r1 hr1; exact ⟨r1, hr1, rfl, rfl⟩
  | cons a t ih =>
    intro st r1 hr1
    rw [processAll_cons] at hr1
    obtain ⟨rm, hrm, e1, e2⟩ := ih (processOne courses ns now today st a) r1 hr1
    obtain ⟨r0, hr0, f1, f2⟩ := processOne_origin courses ns now today st a rm hrm
    exact ⟨r0, hr0, e1.trans f1, e2.trans f2⟩

theorem processOne_links (courses : List Course) (ns : NormalizedPrioritySettings)
    (now today : Int) (st : LoopState) (a : Assignment)
    (hnd : effectiveProject courses a ≠ none)
    (hnf : SyncEvent.destCall false ∉ (processOne courses ns now today st a).events)
    (hrow : ∀ r ∈ st.db.assignments, r.id = a.id → r.todoistTaskId = a.todoistTaskId) :
    ∀ r ∈ (processOne courses ns now today st a).db.assignments, r.id = a.id →
      r.todoistTaskId ≠ none := by
  rcases processOne_spec courses ns now today st a with ⟨hp, he⟩ |
    ⟨p, t, hp, hl, hk, hu, he⟩ | ⟨p, t, hp, hl, hk, hu, he⟩ |
    ⟨p, hp, hl, hk, hc, he⟩ | ⟨p, hp, hl, hk, hc, he⟩ |
    ⟨p, t, hp, hl, hu, he⟩ | ⟨p, t, hp, hl, hu, he⟩
  · exact absurd hp hnd
  · rw [he]
    intro r hr hid
    obtain ⟨r0, hr0, he0⟩ := mem_applyRow hr
    by_cases h0 : r0.id = a.id
    · rw [if_pos h0] at he0
      subst he0
      simp
    · rw [if_neg h0] at he0
      subst he0
      exact absurd hid h0
  · rw [he] at hnf
    exact absurd (List.mem_append_right _ (List.mem_singleton_self _)) hnf
  · rw [he] at hnf
    exact absurd (List.mem_append_right _ (List.mem_singleton_self _)) hnf
  · rw [he]
    intro r hr hid
    obtain ⟨r0, hr0, he0⟩ := mem_applyRow hr
    by_cases h0 : r0.id = a.id
    · rw [if_pos h0] at he0
      subst he0
      simp
    · rw [if_neg h0] at he0
      subst he0
      exact absurd hid h0
  · rw [he]
    intro r hr hid
    obtain ⟨r0, hr0, he0⟩ := mem_applyRow hr
    by_cases h0 : r0.id = a.id
    · rw [if_pos h0] at he0
      subst he0
      have hx := hrow r0 hr0 h0
      simp [hx, hl]
    · rw [if_neg h0] at he0
      subst he0
      exact absurd hid h0
  · rw [he] at hnf
    exact absurd (List.mem_append_right _ (List.mem_singleton_self _)) hnf

theorem processAll_links (courses : List Course) (ns : NormalizedPrioritySettings)
    (now today : Int) (as : List Assignment) :
    ∀ st, (as.map (fun x => x.id)).Nodup →
    (∀ a ∈ as, ∀ r ∈ st.db.assignments, r.id = a.id → r.todoistTaskId = a.todoistTaskId) →
    SyncEvent.destCall false ∉ (processAll courses ns now today st as).events →
    ∀ a ∈ as, effectiveProject courses a ≠ none →
    ∀ r ∈ (processAll courses ns now today st as).db.assignments, r.id = a.id →
      r.todoistTaskId ≠ none := by
  induction as with
  | nil =>
    intro st _ _ _ a ha
    exact absurd ha (List.not_mem_nil a)
  | cons a0 t ih =>
    intro st hnd hrows hnf a ha hae r hr hid
    rw [processAll_cons] at hnf hr
    simp only [List.map_cons, List.nodup_cons] at hnd
    have hnf1 : SyncEvent.destCall false ∉ (processOne courses ns now today st a0).events := by
      obtain ⟨δ, hδ, _⟩ := processAll_events courses ns now today t
        (processOne courses ns now today st a0)
      rw [hδ] at hnf
      intro hmem
      exact hnf (List.mem_append_left _ hmem)
    rcases List.mem_cons.mp ha with rfl | hat
    · have hlink1 := processOne_links courses ns now today st a hae hnf1
        (hrows a (List.mem_cons_self a t))
      have hfr := processAll_frame courses ns now today t
        (processOne courses ns now today st a) a.id hnd.1
      have hrf : r ∈ (processAll courses ns now today
          (processOne courses ns now today st a) t).db.assignments.filter
          (fun x => x.id == a.id) := by
        rw [List.mem_filter]
        exact ⟨hr, by simp [hid]⟩
      rw [hfr] at hrf
      exact hlink1 r (List.mem_filter.mp hrf).1 hid
    · refine ih (processOne courses ns now today st a0) hnd.2 ?_ hnf a hat hae r hr hid
      intro a1 ha1 r1 hr1 hid1
      have hne : a1.id ≠ a0.id := by
        intro hh
        apply hnd.1
        rw [← hh]
        exact List.mem_map_of_mem _ ha1
      have hfr1 := processOne_frame courses ns now today st a0 a1.id hne
      have hmem : r1 ∈ (processOne courses ns now today st a0).db.assignments.filter
          (fun x => x.id == a1.id) := by
        rw [List.mem_filter]
        exact ⟨hr1, by simp [hid1]⟩
      rw [hfr1] at hmem
      exact hrows a1 (List.mem_cons_of_mem a0 ha1) r1 (List.mem_filter.mp hmem).1 hid1

theorem processOne_create_inv (courses : List Course) (ns : NormalizedPrioritySettings)
    (now today : Int) (st : LoopState) (a : Assignment) :
    ∃ Δ, (processOne courses ns now today st a).env.tasks.map keyOf =
        st.env.tasks.map keyOf ++ Δ ∧ Δ.Nodup ∧
      (∀ k ∈ Δ, lookupKey st.index k = none ∧
        lookupKey (processOne courses ns now today st a).index k ≠ none) ∧
      (∀ k v, lookupKey st.index k = some v →
        lookupKey (processOne courses ns now today st a).index k = some v) := by
  rcases processOne_spec courses ns now today st a with ⟨_, he⟩ |
    ⟨p, t, _, _, _, _, he⟩ | ⟨p, t, _, _, _, _, he⟩ |
    ⟨p, _, _, _, _, he⟩ | ⟨p, _, _, hk, _, he⟩ |
    ⟨p, t, _, _, _, he⟩ | ⟨p, t, _, _, _, he⟩
  · rw [he]
    exact ⟨[], (List.append_nil _).symm, List.nodup_nil,
      fun k hk2 => absurd hk2 (List.not_mem_nil k), fun k v hv => hv⟩
  · rw [he]
    refine ⟨[], ?_, List.nodup_nil, fun k hk2 => absurd hk2 (List.not_mem_nil k),
      fun k v hv => hv⟩
    rw [List.append_nil]
    exact updateRemote_keys _ _ _ _
  · rw [he]
    exact ⟨[], (List.append_nil _).symm, List.nodup_nil,
      fun k hk2 => absurd hk2 (List.not_mem_nil k), fun k v hv => hv⟩
  · rw [he]
    exact ⟨[], (List.append_nil _).symm, List.nodup_nil,
      fun k hk2 => absurd hk2 (List.not_mem_nil k), fun k v hv => hv⟩
  · rw [he]
    refine ⟨[makeTaskKey p a.name], ?_, List.nodup_singleton _, ?_, ?_⟩
    · simp [createRemote, keyOf, makeTaskKey]
    · intro k hk2
      rw [List.mem_singleton] at hk2
      subst hk2
      refine ⟨hk, ?_⟩
      rw [lookupKey_setKey_absent st.index _ _ _ hk]
      simp
    · intro k2 v hv
      rw [lookupKey_setKey_absent st.index _ _ _ hk]
      by_cases h2 : k2 = makeTaskKey p a.name
      · rw [h2] at hv
        rw [hv] at hk
        exact Option.noConfusion hk
      · rw [if_neg h2]
        exact hv
  · rw [he]
    refine ⟨[], ?_, List.nodup_nil, fun k hk2 => absurd hk2 (List.not_mem_nil k),
      fun k v hv => hv⟩
    rw [List.append_nil]
    exact updateRemote_keys _ _ _ _
  · rw [he]
    exact ⟨[], (List.append_nil _).symm, List.nodup_nil,
      fun k hk2 => absurd hk2 (List.not_mem_nil k), fun k v hv => hv⟩

theorem processAll_create_inv (courses : List Course) (ns : NormalizedPrioritySettings)
    (now today : Int) (as : List Assignment) :
    ∀ st, ∃ Δ, (processAll courses ns now today st as).env.tasks.map keyOf =
        st.env.tasks.map keyOf ++ Δ ∧ Δ.Nodup ∧
      (∀ k ∈ Δ, lookupKey st.index k = none ∧
        lookupKey (processAll courses ns now today st as).index k ≠ none) ∧
      (∀ k v, lookupKey st.index k = some v →
        lookupKey (processAll courses ns now today st as).index k = some v) := by
  induction as with
  | nil =>
    intro st
    exact ⟨[], (List.append_nil _).symm, List.nodup_nil,
      fun k hk => absurd hk (List.not_mem_nil k), fun k v hv => hv⟩
  | cons a t ih =>
    intro st
    obtain ⟨δ1, ht1, hn1, hm1, hp1⟩ := processOne_create_inv courses ns now today st a
    obtain ⟨δ2, ht2, hn2, hm2, hp2⟩ := ih (processOne courses ns now today st a)
    have hfinal1 : ∀ k ∈ δ1,
        lookupKey (processAll courses ns now today st (a :: t)).index k ≠ none := by
      intro k hk
      rcases hx : lookupKey (processOne courses ns now today st a).index k with _ | v
      · exact absurd hx (hm1 k hk).2
      · rw [processAll_cons]
        intro hcon
        rw [hp2 k v hx] at hcon
        exact Option.noConfusion hcon
    refine ⟨δ1 ++ δ2, ?_, ?_, ?_, ?_⟩
    · rw [processAll_cons, ht2, ht1, List.append_assoc]
    · rw [List.nodup_append]
      refine ⟨hn1, hn2, ?_⟩
      intro k hk hk2
      exact (hm1 k hk).2 (hm2 k hk2).1
    · intro k hk
      rcases List.mem_append.mp hk with h | h
      · exact ⟨(hm1 k h).1, hfinal1 k h⟩
      · refine ⟨?_, ?_⟩
        · rcases hx : lookupKey st.index k with _ | v
          · rfl
          · exact absurd (hp1 k v hx) (fun hh => Option.noConfusion ((hm2 k h).1 ▸ hh))
        · rw [processAll_cons]
          exact (hm2 k h).2
    · intro k v hv
      rw [processAll_cons]
      exact hp2 k v (hp1 k v hv)

/-! ## Run-level infrastructure -/

theorem buildIndex_go_events (env : TodoistEnv) :
    ∀ (ps : List String) (acc : List (String × String) × List SyncEvent),
    ∀ e ∈ (ps.foldl
      (fun acc p =>
        if env.listFails p then (acc.1, acc.2 ++ [SyncEvent.destCall false])
        else (indexProject acc.1 (projectTasks env p) p, acc.2 ++ [SyncEvent.destCall true]))
      acc).2,
      e ∈ acc.2 ∨ ∃ b, e = SyncEvent.destCall b := by
  intro ps
  induction ps with
  | nil =>
    intro acc e he
    exact Or.inl he
  | cons p t ih =>
    intro acc e he
    rw [List.foldl_cons] at he
    rcases ih _ e he with h | h
    · by_cases hf : env.listFails p
      · rw [if_pos hf] at h
        rcases List.mem_append.mp h with h2 | h2
        · exact Or.inl h2
        · exact Or.inr ⟨false, List.mem_singleton.mp h2⟩
      · rw [if_neg hf] at h
        rcases List.mem_append.mp h with h2 | h2
        · exact Or.inl h2
        · exact Or.inr ⟨true, List.mem_singleton.mp h2⟩
    · exact Or.inr h

theorem buildIndex_events (env : TodoistEnv) (ps : List String) :
    ∀ e ∈ (buildIndex env ps).2, ∃ b, e = SyncEvent.destCall b := by
  intro e he
  rcases buildIndex_go_events env ps ([], []) e he with h | h
  · exact absurd h (List.not_mem_nil e)
  · exact h

theorem map_keepRuns (l : List SyncRun) (n : Nat) (f : SyncRun → SyncRun)
    (h : ∀ r ∈ l, r.id ≠ n) :
    l.map (fun r => if r.id = n then f r else r) = l := by
  induction l with
  | nil => rfl
  | cons r t ih =>
    rw [List.map_cons, if_neg (h r (List.mem_cons_self r t)),
      ih (fun x hx => h x (List.mem_cons_of_mem r hx))]

/-- Shape facts about an event list consisting of the run-creation
event, destination calls only, and one final finalization event. -/
theorem count_shape (mid : List SyncEvent) (stt : SyncStatus) (msg : String)
    (hmid : ∀ e ∈ mid, ∃ b, e = SyncEvent.destCall b) :
    ((SyncEvent.createRun .RUNNING :: (mid ++ [SyncEvent.finalizeRun stt msg])).filter
      isCreateEv).length = 1 ∧
    ((SyncEvent.createRun .RUNNING :: (mid ++ [SyncEvent.finalizeRun stt msg])).filter
      isFinalizeEv).length = 1 ∧
    (SyncEvent.createRun .RUNNING :: (mid ++ [SyncEvent.finalizeRun stt msg])).head? =
      some (SyncEvent.createRun .RUNNING) ∧
    (SyncEvent.createRun .RUNNING :: (mid ++ [SyncEvent.finalizeRun stt msg])).getLast? =
      some (SyncEvent.finalizeRun stt msg) := by
  have h1 : mid.filter isCreateEv = [] := by
    refine List.filter_eq_nil_iff.mpr ?_
    intro e he
    obtain ⟨b, rfl⟩ := hmid e he
    simp [isCreateEv]
  have h2 : mid.filter isFinalizeEv = [] := by
    refine List.filter_eq_nil_iff.mpr ?_
    intro e he
    obtain ⟨b, rfl⟩ := hmid e he
    simp [isFinalizeEv]
  refine ⟨?_, ?_, rfl, ?_⟩
  · simp [List.filter_cons, List.filter_append, h1, h2, isCreateEv, isFinalizeEv]
  · simp [List.filter_cons, List.filter_append, h1, h2, isCreateEv, isFinalizeEv]
  · rw [← List.cons_append, List.getLast?_concat]

/-- Equation of the run in the trivial empty-scope case. -/
theorem sync_eq_empty_scope (userId : String) (courseIds : List String)
    (ps : Option PrioritySettingsInput) (db : Db) (env : TodoistEnv) (now today : Int)
    (hne : courseIds.isEmpty = false)
    (hconf : db.configuredUsers.contains userId = true)
    (hsc : (scopedCourses db userId courseIds).isEmpty = true) :
    syncAssignmentsToTodoist userId courseIds ps db env now today =
      { result := Except.ok { created := 0, skipped := 0 }
        db := finalizeSyncRun (dbWithRun db userId courseIds) db.nextRunId .SUCCESS
          (successMsg 0 0) now
        env := env
        events := [SyncEvent.createRun .RUNNING,
          SyncEvent.finalizeRun .SUCCESS (successMsg 0 0)] } := by
  unfold syncAssignmentsToTodoist dbWithRun runningRecord
  rw [if_neg (by rw [hne]; exact Bool.false_ne_true),
    if_neg (by rw [hconf]; simp)]
  dsimp only
  rw [if_pos hsc]
  rfl

/-- Equation of the run in the modelled unexpected-store-failure case. -/
theorem sync_eq_store (userId : String) (courseIds : List String)
    (ps : Option PrioritySettingsInput) (db : Db) (env : TodoistEnv) (now today : Int)
    (hne : courseIds.isEmpty = false)
    (hconf : db.configuredUsers.contains userId = true)
    (hsc : (scopedCourses db userId courseIds).isEmpty = false)
    (hsf : db.storeFails = true) :
    syncAssignmentsToTodoist userId courseIds ps db env now today =
      { result := Except.error storeErrorMsg
        db := finalizeSyncRun (dbWithRun db userId courseIds) db.nextRunId .ERROR
          storeErrorMsg now
        env := env
        events := [SyncEvent.createRun .RUNNING,
          SyncEvent.finalizeRun .ERROR storeErrorMsg] } := by
  unfold syncAssignmentsToTodoist dbWithRun runningRecord
  rw [if_neg (by rw [hne]; exact Bool.false_ne_true),
    if_neg (by rw [hconf]; simp)]
  dsimp only
  rw [if_neg (by rw [hsc]; exact Bool.false_ne_true), if_pos hsf]
  rfl

/-- Equation of the run in the main case. -/
theorem sync_eq_main (userId : String) (courseIds : List String)
    (ps : Option PrioritySettingsInput) (db : Db) (env : TodoistEnv) (now today : Int)
    (hne : courseIds.isEmpty = false)
    (hconf : db.configuredUsers.contains userId = true)
    (hsc : (scopedCourses db userId courseIds).isEmpty = false)
    (hsf : db.storeFails = false) :
    syncAssignmentsToTodoist userId courseIds ps db env now today =
      { result := Except.ok
          { created := (mainRun userId courseIds ps db env now today).created
            skipped := (mainRun userId courseIds ps db env now today).skipped }
        db := finalizeSyncRun (mainRun userId courseIds ps db env now today).db db.nextRunId
          .SUCCESS (successMsg (mainRun userId courseIds ps db env now today).created
            (mainRun userId courseIds ps db env now today).skipped) now
        env := (mainRun userId courseIds ps db env now today).env
        events := (mainRun userId courseIds ps db env now today).events ++
          [SyncEvent.finalizeRun .SUCCESS
            (successMsg (mainRun userId courseIds ps db env now today).created
              (mainRun userId courseIds ps db env now today).skipped)] } := by
  unfold syncAssignmentsToTodoist mainRun dbWithRun runningRecord
  rw [if_neg (by rw [hne]; exact Bool.false_ne_true),
    if_neg (by rw [hconf]; simp)]
  dsimp only
  rw [if_neg (by rw [hsc]; exact Bool.false_ne_true),
    if_neg (by rw [hsf]; exact Bool.false_ne_true)]

/-! ## Claim C2 -/

/-- C2 as amended: every invocation with a non-empty course-id argument
and a configured destination account creates exactly one SyncRun record
in RUNNING state as its first event, before any destination-system
call, and finalizes it exactly once, as its last event; the record ends
finalized with a finish timestamp.  Without the modelled unexpected
store failure, the run finalizes SUCCESS with the created-skipped
summary whatever the per-assignment destination failures are, the
trivial empty-scope case included; with the modelled store failure and
a non-trivial scope it finalizes ERROR with the failure description and
rethrows.  The claim as frozen says every invocation creates a SyncRun;
an invocation with an empty course-id list creates none, which the
counterexample shows. -/
theorem claim_C2 (userId : String) (courseIds : List String)
    (ps : Option PrioritySettingsInput) (db : Db) (env : TodoistEnv) (now today : Int)
    (hne : courseIds.isEmpty = false)
    (hconf : db.configuredUsers.contains userId = true)
    (hids : ∀ r ∈ db.syncRuns, r.id ≠ db.nextRunId) :
    ∃ stt msg,
      (syncAssignmentsToTodoist userId courseIds ps db env now today).events.head? =
        some (SyncEvent.createRun .RUNNING) ∧
      ((syncAssignmentsToTodoist userId courseIds ps db env now today).events.filter
        isCreateEv).length = 1 ∧
      ((syncAssignmentsToTodoist userId courseIds ps db env now today).events.filter
        isFinalizeEv).length = 1 ∧
      (syncAssignmentsToTodoist userId courseIds ps db env now today).events.getLast? =
        some (SyncEvent.finalizeRun stt msg) ∧
      (syncAssignmentsToTodoist userId courseIds ps db env now today).db.syncRuns =
        db.syncRuns ++
          [{ id := db.nextRunId, userId := userId, status := stt, message := msg,
             finishedAt := some now }] ∧
      (db.storeFails = false →
        ∃ res, (syncAssignmentsToTodoist userId courseIds ps db env now today).result =
          Except.ok res ∧ stt = SyncStatus.SUCCESS ∧ msg = successMsg res.created res.skipped) ∧
      (db.storeFails = true → (scopedCourses db userId courseIds).isEmpty = false →
        stt = SyncStatus.ERROR ∧ msg = storeErrorMsg ∧
        (syncAssignmentsToTodoist userId courseIds ps db env now today).result =
          Except.error storeErrorMsg) := by
  by_cases hsc : (scopedCourses db userId courseIds).isEmpty = true
  · rw [sync_eq_empty_scope userId courseIds ps db env now today hne hconf hsc]
    dsimp only
    obtain ⟨c1, c2, c3, c4⟩ := count_shape [] SyncStatus.SUCCESS (successMsg 0 0)
      (fun e he => absurd he (List.not_mem_nil e))
    refine ⟨.SUCCESS, successMsg 0 0, c3, c1, c2, c4, ?_, ?_, ?_⟩
    · show (dbWithRun db userId courseIds).syncRuns.map _ = _
      rw [show (dbWithRun db userId courseIds).syncRuns =
        db.syncRuns ++ [runningRecord db userId courseIds] from rfl]
      rw [List.map_append, map_keepRuns _ _ _ hids]
      simp [runningRecord]
    · intro _
      exact ⟨{ created := 0, skipped := 0 }, rfl, rfl, rfl⟩
    · intro _ hsc2
      rw [hsc] at hsc2
      exact absurd hsc2 (by simp)
  · have hsc2 : (scopedCourses db userId courseIds).isEmpty = false :=
      Bool.eq_false_iff.mpr hsc
    rcases hsf : db.storeFails with _ | _
    · rw [sync_eq_main userId courseIds ps db env now today hne hconf hsc2 hsf]
      dsimp only
      obtain ⟨δ, hδ, hδb⟩ := processAll_events (scopedCourses db userId courseIds)
        (normalizePrioritySettings ps) now today
        (scopedAssignments db (scopedCourses db userId courseIds))
        { db := dbWithRun db userId courseIds
          env := env
          index := (buildIndex env (projectIdsOf (scopedCourses db userId courseIds))).1
          created := 0
          skipped := 0
          events := [SyncEvent.createRun .RUNNING] ++
            (buildIndex env (projectIdsOf (scopedCourses db userId courseIds))).2 }
      have h0 : (mainRun userId courseIds ps db env now today).events =
          ([SyncEvent.createRun .RUNNING] ++
            (buildIndex env (projectIdsOf (scopedCourses db userId courseIds))).2) ++ δ := hδ
      have hev : (mainRun userId courseIds ps db env now today).events =
          SyncEvent.createRun .RUNNING ::
            ((buildIndex env (projectIdsOf (scopedCourses db userId courseIds))).2 ++ δ) := by
        rw [h0]
        simp
      have hmid : ∀ e ∈ (buildIndex env
          (projectIdsOf (scopedCourses db userId courseIds))).2 ++ δ,
          ∃ b, e = SyncEvent.destCall b := by
        intro e he
        rcases List.mem_append.mp he with h | h
        · exact buildIndex_events env _ e h
        · exact hδb e h
      obtain ⟨c1, c2, c3, c4⟩ := count_shape
        ((buildIndex env (projectIdsOf (scopedCourses db userId courseIds))).2 ++ δ)
        SyncStatus.SUCCESS
        (successMsg (mainRun userId courseIds ps db env now today).created
          (mainRun userId courseIds ps db env now today).skipped) hmid
      refine ⟨.SUCCESS,
        successMsg (mainRun userId courseIds ps db env now today).created
          (mainRun userId courseIds ps db env now today).skipped,
        ?_, ?_, ?_, ?_, ?_, ?_, ?_⟩
      · rw [hev, List.cons_append]
        exact c3
      · rw [hev, List.cons_append]
        exact c1
      · rw [hev, List.cons_append]
        exact c2
      · rw [hev, List.cons_append]
        exact c4
      · have hdbm : (mainRun userId courseIds ps db env now today).db.syncRuns =
            db.syncRuns ++ [runningRecord db userId courseIds] :=
          (processAll_db_misc (scopedCourses db userId courseIds)
            (normalizePrioritySettings ps) now today
            (scopedAssignments db (scopedCourses db userId courseIds))
            { db := dbWithRun db userId courseIds
              env := env
              index := (buildIndex env (projectIdsOf (scopedCourses db userId courseIds))).1
              created := 0
              skipped := 0
              events := [SyncEvent.createRun .RUNNING] ++
                (buildIndex env (projectIdsOf (scopedCourses db userId courseIds))).2 }).2.2.1
        show (mainRun userId courseIds ps db env now today).db.syncRuns.map _ = _
        rw [hdbm, List.map_append, map_keepRuns _ _ _ hids]
        simp [runningRecord]
      · intro _
        exact ⟨{ created := (mainRun userId courseIds ps db env now today).created
                 skipped := (mainRun userId courseIds ps db env now today).skipped },
          rfl, rfl, rfl⟩
      · intro hsf2 _
        exact absurd hsf2 (by simp)
    · rw [sync_eq_store userId courseIds ps db env now today hne hconf hsc2 hsf]
      dsimp only
      obtain ⟨c1, c2, c3, c4⟩ := count_shape [] SyncStatus.ERROR storeErrorMsg
        (fun e he => absurd he (List.not_mem_nil e))
      refine ⟨.ERROR, storeErrorMsg, c3, c1, c2, c4, ?_, ?_, ?_⟩
      · show (dbWithRun db userId courseIds).syncRuns.map _ = _
        rw [show (dbWithRun db userId courseIds).syncRuns =
          db.syncRuns ++ [runningRecord db userId courseIds] from rfl]
        rw [List.map_append, map_keepRuns _ _ _ hids]
        simp [runningRecord]
      · intro hsf2
        exact absurd hsf2 (by simp)
      · intro _ _
        exact ⟨rfl, rfl, rfl⟩

/-- C2 counterexample: an invocation with an empty course-id list
returns without creating any SyncRun record and without emitting any
event, contradicting the claim that every invocation creates a RUNNING
SyncRun record and finalizes it. -/
theorem claim_C2_counterexample :
    (syncAssignmentsToTodoist "u" [] none (dbFor []) envNoFail 0 0).events = [] ∧
    (syncAssignmentsToTodoist "u" [] none (dbFor []) envNoFail 0 0).db.syncRuns = [] ∧
    (syncAssignmentsToTodoist "u" [] none (dbFor []) envNoFail 0 0).result =
      Except.ok { created := 0, skipped := 0 } :=
  ⟨rfl, rfl, rfl⟩

/-- C2 witness: the amended bracketing applied at a concrete input. -/
theorem claim_C2_witness :
    ∃ stt msg,
      (syncAssignmentsToTodoist "u" ["c1"] none (dbFor []) envNoFail 0 0).events.head? =
        some (SyncEvent.createRun .RUNNING) ∧
      ((syncAssignmentsToTodoist "u" ["c1"] none (dbFor []) envNoFail 0 0).events.filter
        isCreateEv).length = 1 ∧
      ((syncAssignmentsToTodoist "u" ["c1"] none (dbFor []) envNoFail 0 0).events.filter
        isFinalizeEv).length = 1 ∧
      (syncAssignmentsToTodoist "u" ["c1"] none (dbFor []) envNoFail 0 0).events.getLast? =
        some (SyncEvent.finalizeRun stt msg) ∧
      (syncAssignmentsToTodoist "u" ["c1"] none (dbFor []) envNoFail 0 0).db.syncRuns =
        (dbFor []).syncRuns ++
          [{ id := (dbFor []).nextRunId, userId := "u", status := stt, message := msg,
             finishedAt := some 0 }] ∧
      ((dbFor []).storeFails = false →
        ∃ res, (syncAssignmentsToTodoist "u" ["c1"] none (dbFor []) envNoFail 0 0).result =
          Except.ok res ∧ stt = SyncStatus.SUCCESS ∧ msg = successMsg res.created res.skipped) ∧
      ((dbFor []).storeFails = true → (scopedCourses (dbFor []) "u" ["c1"]).isEmpty = false →
        stt = SyncStatus.ERROR ∧ msg = storeErrorMsg ∧
        (syncAssignmentsToTodoist "u" ["c1"] none (dbFor []) envNoFail 0 0).result =
          Except.error storeErrorMsg) :=
  claim_C2 "u" ["c1"] none (dbFor []) envNoFail 0 0 rfl (by decide)
    (fun r hr => absurd hr (List.not_mem_nil r))

/-! ## Claim C10 -/

/-- C10: when the update of a linked assignment's destination task
fails, the loop not only clears the stored todoistTaskId but also sets
lastSyncedAt to the current time, and counts the assignment as skipped.
Consequently lastSyncedAt records the most recent sync attempt rather
than the most recent successful sync, and a non-null lastSyncedAt does
not imply the assignment is currently linked. -/
theorem claim_C10 (courses : List Course) (ns : NormalizedPrioritySettings)
    (now today : Int) (st : LoopState) (a : Assignment) (tid : String)
    (hproj : effectiveProject courses a ≠ none)
    (hlink : a.todoistTaskId = some tid)
    (hfail : updateOk st.env tid = false) :
    (processOne courses ns now today st a).skipped = st.skipped + 1 ∧
    ∀ r ∈ (processOne courses ns now today st a).db.assignments, r.id = a.id →
      r.todoistTaskId = none ∧ r.lastSyncedAt = some now := by
  rcases processOne_spec courses ns now today st a with ⟨hp, he⟩ |
    ⟨p, t, hp, hl, hk, hu, he⟩ | ⟨p, t, hp, hl, hk, hu, he⟩ |
    ⟨p, hp, hl, hk, hc, he⟩ | ⟨p, hp, hl, hk, hc, he⟩ |
    ⟨p, t, hp, hl, hu, he⟩ | ⟨p, t, hp, hl, hu, he⟩
  · exact absurd hp hproj
  · rw [hlink] at hl
    exact Option.noConfusion hl
  · rw [hlink] at hl
    exact Option.noConfusion hl
  · rw [hlink] at hl
    exact Option.noConfusion hl
  · rw [hlink] at hl
    exact Option.noConfusion hl
  · have ht : tid = t := Option.some.inj (hlink.symm.trans hl)
    rw [← ht] at hu
    rw [hfail] at hu
    exact Bool.noConfusion hu
  · rw [he]
    refine ⟨rfl, ?_⟩
    intro r hr hid
    obtain ⟨r0, hr0, he0⟩ := mem_applyRow hr
    by_cases h0 : r0.id = a.id
    · rw [if_pos h0] at he0
      subst he0
      exact ⟨rfl, rfl⟩
    · rw [if_neg h0] at he0
      subst he0
      exact absurd hid h0

/-- C10 witness: a linked assignment whose destination task is gone. -/
theorem claim_C10_witness :
    (processOne [courseU] (normalizePrioritySettings none) 7 0
      { db := dbFor [{ id := "a1", courseId := "c1", name := "T", dueDate := none
                       todoistTaskId := some "ghost", lastSyncedAt := none }]
        env := envNoFail, index := [], created := 0, skipped := 0, events := [] }
      { id := "a1", courseId := "c1", name := "T", dueDate := none
        todoistTaskId := some "ghost", lastSyncedAt := none }).skipped =
      ({ db := dbFor [{ id := "a1", courseId := "c1", name := "T", dueDate := none
                        todoistTaskId := some "ghost", lastSyncedAt := none }]
         env := envNoFail, index := [], created := 0, skipped := 0,
         events := [] } : LoopState).skipped + 1 ∧
    ∀ r ∈ (processOne [courseU] (normalizePrioritySettings none) 7 0
      { db := dbFor [{ id := "a1", courseId := "c1", name := "T", dueDate := none
                       todoistTaskId := some "ghost", lastSyncedAt := none }]
        env := envNoFail, index := [], created := 0, skipped := 0, events := [] }
      { id := "a1", courseId := "c1", name := "T", dueDate := none
        todoistTaskId := some "ghost", lastSyncedAt := none }).db.assignments,
      r.id = ({ id := "a1", courseId := "c1", name := "T", dueDate := none
                todoistTaskId := some "ghost", lastSyncedAt := none } : Assignment).id →
      r.todoistTaskId = none ∧ r.lastSyncedAt = some 7 :=
  claim_C10 [courseU] (normalizePrioritySettings none) 7 0
    { db := dbFor [{ id := "a1", courseId := "c1", name := "T", dueDate := none
                     todoistTaskId := some "ghost", lastSyncedAt := none }]
      env := envNoFail, index := [], created := 0, skipped := 0, events := [] }
    { id := "a1", courseId := "c1", name := "T", dueDate := none
      todoistTaskId := some "ghost", lastSyncedAt := none }
    "ghost" (by decide) rfl (by decide)

/-! ## Claim C4 -/

/-- C4: an unlinked assignment whose destination-project and trimmed
title key is present in the task index, when the update of the matched
task succeeds, is relinked to the indexed task id, stamped lastSyncedAt,
counted skipped and not created, and no destination task is created for
it.  Moreover, over an entire run, the keys of all created tasks are
pairwise distinct and none of them was present in the index at the start
of the run, so the run never creates a second task with the same title
in the same project as an indexed task, including tasks the run itself
created earlier. -/
theorem claim_C4 (courses : List Course) (ns : NormalizedPrioritySettings)
    (now today : Int) (st : LoopState) (a : Assignment) (proj tid : String)
    (as : List Assignment)
    (hproj : effectiveProject courses a = some proj)
    (hun : a.todoistTaskId = none)
    (hkey : lookupKey st.index (makeTaskKey proj a.name) = some tid)
    (hupd : updateOk st.env tid = true) :
    ((processOne courses ns now today st a).created = st.created ∧
     (processOne courses ns now today st a).skipped = st.skipped + 1 ∧
     (processOne courses ns now today st a).env.tasks.map keyOf =
       st.env.tasks.map keyOf ∧
     (∀ r ∈ (processOne courses ns now today st a).db.assignments, r.id = a.id →
        r.todoistTaskId = some tid ∧ r.lastSyncedAt = some now)) ∧
    (∃ Δ, (processAll courses ns now today st as).env.tasks.map keyOf =
        st.env.tasks.map keyOf ++ Δ ∧ Δ.Nodup ∧
      ∀ k ∈ Δ, lookupKey st.index k = none) := by
  constructor
  · rcases processOne_spec courses ns now today st a with ⟨hp, he⟩ |
      ⟨p, t, hp, hl, hk, hu, he⟩ | ⟨p, t, hp, hl, hk, hu, he⟩ |
      ⟨p, hp, hl, hk, hc, he⟩ | ⟨p, hp, hl, hk, hc, he⟩ |
      ⟨p, t, hp, hl, hu, he⟩ | ⟨p, t, hp, hl, hu, he⟩
    · rw [hproj] at hp
      exact Option.noConfusion hp
    · have hpp : proj = p := Option.some.inj (hproj.symm.trans hp)
      subst hpp
      have ht : tid = t := Option.some.inj (hkey.symm.trans hk)
      subst ht
      rw [he]
      refine ⟨rfl, rfl, ?_, ?_⟩
      · rw [show ({ st with
            env := updateRemote st.env tid (assignPriority ns today a) a.dueDate
            db := updateAssignmentRow st.db a.id (fun r =>
              { r with todoistTaskId := some tid, lastSyncedAt := some now })
            skipped := st.skipped + 1
            events := st.events ++ [SyncEvent.destCall true] } : LoopState).env =
          updateRemote st.env tid (assignPriority ns today a) a.dueDate from rfl]
        exact updateRemote_keys _ _ _ _
      · intro r hr hid
        obtain ⟨r0, hr0, he0⟩ := mem_applyRow hr
        by_cases h0 : r0.id = a.id
        · rw [if_pos h0] at he0
          subst he0
          exact ⟨rfl, rfl⟩
        · rw [if_neg h0] at he0
          subst he0
          exact absurd hid h0
    · have hpp : proj = p := Option.some.inj (hproj.symm.trans hp)
      subst hpp
      have ht : tid = t := Option.some.inj (hkey.symm.trans hk)
      subst ht
      rw [hupd] at hu
      exact Bool.noConfusion hu
    · have hpp : proj = p := Option.some.inj (hproj.symm.trans hp)
      subst hpp
      rw [hkey] at hk
      exact Option.noConfusion hk
    · have hpp : proj = p := Option.some.inj (hproj.symm.trans hp)
      subst hpp
      rw [hkey] at hk
      exact Option.noConfusion hk
    · rw [hun] at hl
      exact Option.noConfusion hl
    · rw [hun] at hl
      exact Option.noConfusion hl
  · obtain ⟨Δ, h1, h2, h3, _⟩ := processAll_create_inv courses ns now today as st
    exact ⟨Δ, h1, h2, fun k hk => (h3 k hk).1⟩

/-! ## Claim C3 evaluation -/

/-- C3 evaluation at the failing input: one unlinked assignment titled
T, a destination task titled T already in project P and present in the
index, and an update of that task that fails.  The run finishes with
zero created and zero skipped, the assignment stays unlinked, and no
destination task is created — the engine moves to the next assignment
instead of falling back to creating a new task, although the source's
own comment and the specification say creation should follow. -/
theorem claim_C3_eval :
    runC3.result = Except.ok { created := 0, skipped := 0 } ∧
    (∀ r ∈ runC3.db.assignments, r.todoistTaskId = none) ∧
    runC3.env.tasks.map RemoteTask.id = ["t1"] ∧
    runC3.events =
      [SyncEvent.createRun .RUNNING, SyncEvent.destCall true, SyncEvent.destCall false,
       SyncEvent.finalizeRun .SUCCESS (successMsg 0 0)] := by
  refine ⟨rfl, ?_, rfl, rfl⟩
  intro r hr
  fin_cases hr
  rfl

/-- C4 witness: an unlinked assignment relinks to the indexed task. -/
theorem claim_C4_witness :
    ((processOne [courseU] (normalizePrioritySettings none) 3 0 stC4 aC4).created =
        stC4.created ∧
     (processOne [courseU] (normalizePrioritySettings none) 3 0 stC4 aC4).skipped =
        stC4.skipped + 1 ∧
     (processOne [courseU] (normalizePrioritySettings none) 3 0 stC4 aC4).env.tasks.map keyOf =
        stC4.env.tasks.map keyOf ∧
     (∀ r ∈ (processOne [courseU] (normalizePrioritySettings none) 3 0 stC4 aC4).db.assignments,
        r.id = aC4.id → r.todoistTaskId = some "t1" ∧ r.lastSyncedAt = some 3)) ∧
    (∃ Δ, (processAll [courseU] (normalizePrioritySettings none) 3 0 stC4 []).env.tasks.map keyOf =
        stC4.env.tasks.map keyOf ++ Δ ∧ Δ.Nodup ∧
      ∀ k ∈ Δ, lookupKey stC4.index k = none) :=
  claim_C4 [courseU] (normalizePrioritySettings none) 3 0 stC4 aC4 "P" "t1" []
    (by decide) rfl (by decide) (by decide)

/-! ## Claim C1 -/

/-- Store-field preservation through the main run. -/
theorem mainRun_db_misc (userId : String) (courseIds : List String)
    (ps : Option PrioritySettingsInput) (db : Db) (env : TodoistEnv) (now today : Int) :
    (mainRun userId courseIds ps db env now today).db.configuredUsers = db.configuredUsers ∧
    (mainRun userId courseIds ps db env now today).db.courses = db.courses ∧
    (mainRun userId courseIds ps db env now today).db.syncRuns =
      db.syncRuns ++ [runningRecord db userId courseIds] ∧
    (mainRun userId courseIds ps db env now today).db.storeFails = db.storeFails := by
  obtain ⟨h1, h2, h3, h4, h5⟩ := processAll_db_misc (scopedCourses db userId courseIds)
    (normalizePrioritySettings ps) now today
    (scopedAssignments db (scopedCourses db userId courseIds))
    { db := dbWithRun db userId courseIds
      env := env
      index := (buildIndex env (projectIdsOf (scopedCourses db userId courseIds))).1
      created := 0
      skipped := 0
      events := [SyncEvent.createRun .RUNNING] ++
        (buildIndex env (projectIdsOf (scopedCourses db userId courseIds))).2 }
  exact ⟨h1, h2, h3, h5⟩

/-- Bucket lookup of an assignment depends only on its course id. -/
theorem effectiveProject_congr (courses : List Course) (x y : Assignment)
    (h : x.courseId = y.courseId) :
    effectiveProject courses x = effectiveProject courses y := by
  unfold effectiveProject
  rw [h]

/-- C1 counterexample: with a persistently failing project listing and
a persistently failing update of the first created task, a first run
over two same-titled unlinked assignments finishes SUCCESS with one
creation, the state is left untouched between the runs, and the second
run creates another task: created is 1, not 0, on the second run. -/
theorem claim_C1_counterexample :
    runC1a.result = Except.ok { created := 1, skipped := 0 } ∧
    runC1a.events.getLast? = some (SyncEvent.finalizeRun .SUCCESS (successMsg 1 0)) ∧
    scopedCourses dbC1 "u" ["c1"] ≠ [] ∧
    runC1b.result = Except.ok { created := 1, skipped := 1 } := by
  refine ⟨rfl, rfl, by decide, rfl⟩

/-- C1 as amended: if the first run makes no failing destination call
at all (every listing, update and creation it performs succeeds), then
it returns a SUCCESS result and an immediately following second run on
its output state creates nothing: created is 0 on the second run.  The
unamended claim, which assumes only a SUCCESS status of the first run,
fails on the counterexample. -/
theorem claim_C1 (userId : String) (courseIds : List String)
    (ps : Option PrioritySettingsInput) (db : Db) (env : TodoistEnv)
    (now1 today1 now2 today2 : Int)
    (hne : courseIds.isEmpty = false)
    (hconf : db.configuredUsers.contains userId = true)
    (hsf : db.storeFails = false)
    (hnodup : (db.assignments.map (fun a => a.id)).Nodup)
    (hnf : ∀ e ∈ (syncAssignmentsToTodoist userId courseIds ps db env now1 today1).events,
      e ≠ SyncEvent.destCall false) :
    (∃ res1, (syncAssignmentsToTodoist userId courseIds ps db env now1 today1).result =
      Except.ok res1) ∧
    ∃ res2,
      (syncAssignmentsToTodoist userId courseIds ps
        (syncAssignmentsToTodoist userId courseIds ps db env now1 today1).db
        (syncAssignmentsToTodoist userId courseIds ps db env now1 today1).env
        now2 today2).result = Except.ok res2 ∧
      res2.created = 0 := by
  by_cases hsc : (scopedCourses db userId courseIds).isEmpty = true
  · rw [sync_eq_empty_scope userId courseIds ps db env now1 today1 hne hconf hsc]
    have hconf2 : (finalizeSyncRun (dbWithRun db userId courseIds) db.nextRunId
        SyncStatus.SUCCESS (successMsg 0 0) now1).configuredUsers.contains userId = true := hconf
    have hsc2 : (scopedCourses (finalizeSyncRun (dbWithRun db userId courseIds) db.nextRunId
        SyncStatus.SUCCESS (successMsg 0 0) now1) userId courseIds).isEmpty = true := hsc
    dsimp only
    rw [sync_eq_empty_scope userId courseIds ps _ env now2 today2 hne hconf2 hsc2]
    exact ⟨⟨{ created := 0, skipped := 0 }, rfl⟩, { created := 0, skipped := 0 }, rfl, rfl⟩
  · have hsce : (scopedCourses db userId courseIds).isEmpty = false := Bool.eq_false_iff.mpr hsc
    rw [sync_eq_main userId courseIds ps db env now1 today1 hne hconf hsce hsf] at hnf ⊢
    dsimp only at hnf ⊢
    obtain ⟨hm1, hm2, hm3, hm4⟩ := mainRun_db_misc userId courseIds ps db env now1 today1
    refine ⟨⟨{ created := (mainRun userId courseIds ps db env now1 today1).created
               skipped := (mainRun userId courseIds ps db env now1 today1).skipped }, rfl⟩, ?_⟩
    set F := finalizeSyncRun (mainRun userId courseIds ps db env now1 today1).db db.nextRunId
      SyncStatus.SUCCESS (successMsg (mainRun userId courseIds ps db env now1 today1).created
        (mainRun userId courseIds ps db env now1 today1).skipped) now1 with hF
    have hFcu : F.configuredUsers.contains userId = true := by
      rw [hF]
      show (mainRun userId courseIds ps db env now1 today1).db.configuredUsers.contains
        userId = true
      rw [hm1]
      exact hconf
    have hFsf : F.storeFails = false := by
      rw [hF]
      show (mainRun userId courseIds ps db env now1 today1).db.storeFails = false
      rw [hm4]
      exact hsf
    have hFcourses : F.courses = db.courses := by
      rw [hF]
      show (mainRun userId courseIds ps db env now1 today1).db.courses = db.courses
      exact hm2
    have hCC : scopedCourses F userId courseIds = scopedCourses db userId courseIds := by
      unfold scopedCourses
      rw [hFcourses]
    have hFsc : (scopedCourses F userId courseIds).isEmpty = false := by
      rw [hCC]
      exact hsce
    rw [sync_eq_main userId courseIds ps F
      (mainRun userId courseIds ps db env now1 today1).env now2 today2 hne hFcu hFsc hFsf]
    dsimp only
    refine ⟨{ created := (mainRun userId courseIds ps F
                (mainRun userId courseIds ps db env now1 today1).env now2 today2).created
              skipped := (mainRun userId courseIds ps F
                (mainRun userId courseIds ps db env now1 today1).env now2 today2).skipped },
      rfl, ?_⟩
    show (mainRun userId courseIds ps F
      (mainRun userId courseIds ps db env now1 today1).env now2 today2).created = 0
    have hH : ∀ a2 ∈ scopedAssignments F (scopedCourses F userId courseIds),
        a2.todoistTaskId ≠ none ∨
        effectiveProject (scopedCourses F userId courseIds) a2 = none := by
      intro a2 ha2
      have ha2m : a2 ∈ F.assignments ∧
          (scopedCourses db userId courseIds).any (fun c => c.id == a2.courseId) = true := by
        unfold scopedAssignments at ha2
        rw [hCC] at ha2
        exact List.mem_filter.mp ha2
      by_cases hdeg : effectiveProject (scopedCourses db userId courseIds) a2 = none
      · right
        rw [hCC]
        exact hdeg
      · left
        have ha2M : a2 ∈ (processAll (scopedCourses db userId courseIds)
            (normalizePrioritySettings ps) now1 today1
            { db := dbWithRun db userId courseIds
              env := env
              index := (buildIndex env (projectIdsOf (scopedCourses db userId courseIds))).1
              created := 0
              skipped := 0
              events := [SyncEvent.createRun .RUNNING] ++
                (buildIndex env (projectIdsOf (scopedCourses db userId courseIds))).2 }
            (scopedAssignments db (scopedCourses db userId courseIds))).db.assignments :=
          ha2m.1
        obtain ⟨r0, hr0, hid0, hcid0⟩ := processAll_origin (scopedCourses db userId courseIds)
          (normalizePrioritySettings ps) now1 today1
          (scopedAssignments db (scopedCourses db userId courseIds))
          { db := dbWithRun db userId courseIds
            env := env
            index := (buildIndex env (projectIdsOf (scopedCourses db userId courseIds))).1
            created := 0
            skipped := 0
            events := [SyncEvent.createRun .RUNNING] ++
              (buildIndex env (projectIdsOf (scopedCourses db userId courseIds))).2 }
          a2 ha2M
        have hr0db : r0 ∈ db.assignments := hr0
        have hr0snap : r0 ∈ scopedAssignments db (scopedCourses db userId courseIds) := by
          unfold scopedAssignments
          rw [List.mem_filter]
          refine ⟨hr0db, ?_⟩
          rw [← hcid0]
          exact ha2m.2
        have hr0nd : effectiveProject (scopedCourses db userId courseIds) r0 ≠ none := by
          rw [effectiveProject_congr (scopedCourses db userId courseIds) r0 a2 hcid0.symm]
          exact hdeg
        have hsub : List.Sublist (scopedAssignments db (scopedCourses db userId courseIds))
            db.assignments := by
          unfold scopedAssignments
          exact List.filter_sublist _
        have hnodup1 : ((scopedAssignments db (scopedCourses db userId courseIds)).map
            (fun x => x.id)).Nodup :=
          hnodup.sublist (hsub.map (fun x => x.id))
        have hrows1 : ∀ ax ∈ scopedAssignments db (scopedCourses db userId courseIds),
            ∀ rx ∈ ({ db := dbWithRun db userId courseIds
                      env := env
                      index := (buildIndex env
                        (projectIdsOf (scopedCourses db userId courseIds))).1
                      created := 0
                      skipped := 0
                      events := [SyncEvent.createRun .RUNNING] ++
                        (buildIndex env (projectIdsOf
                          (scopedCourses db userId courseIds))).2 } :
              LoopState).db.assignments,
            rx.id = ax.id → rx.todoistTaskId = ax.todoistTaskId := by
          intro ax hax rx hrx hidx
          have hax2 : ax ∈ db.assignments := List.mem_of_mem_filter hax
          have hrx2 : rx ∈ db.assignments := hrx
          have heq := List.inj_on_of_nodup_map hnodup hrx2 hax2 hidx
          rw [heq]
        have hnf1 : SyncEvent.destCall false ∉ (processAll (scopedCourses db userId courseIds)
            (normalizePrioritySettings ps) now1 today1
            { db := dbWithRun db userId courseIds
              env := env
              index := (buildIndex env (projectIdsOf (scopedCourses db userId courseIds))).1
              created := 0
              skipped := 0
              events := [SyncEvent.createRun .RUNNING] ++
                (buildIndex env (projectIdsOf (scopedCourses db userId courseIds))).2 }
            (scopedAssignments db (scopedCourses db userId courseIds))).events := by
          intro hmem
          exact hnf (SyncEvent.destCall false) (List.mem_append_left _ hmem) rfl
        exact processAll_links (scopedCourses db userId courseIds)
          (normalizePrioritySettings ps) now1 today1
          (scopedAssignments db (scopedCourses db userId courseIds))
          { db := dbWithRun db userId courseIds
            env := env
            index := (buildIndex env (projectIdsOf (scopedCourses db userId courseIds))).1
            created := 0
            skipped := 0
            events := [SyncEvent.createRun .RUNNING] ++
              (buildIndex env (projectIdsOf (scopedCourses db userId courseIds))).2 }
          hnodup1 hrows1 hnf1 r0 hr0snap hr0nd a2 ha2M hid0
    exact processAll_no_create (scopedCourses F userId courseIds)
      (normalizePrioritySettings ps) now2 today2
      (scopedAssignments F (scopedCourses F userId courseIds))
      { db := dbWithRun F userId courseIds
        env := (mainRun userId courseIds ps db env now1 today1).env
        index := (buildIndex (mainRun userId courseIds ps db env now1 today1).env
          (projectIdsOf (scopedCourses F userId courseIds))).1
        created := 0
        skipped := 0
        events := [SyncEvent.createRun .RUNNING] ++
          (buildIndex (mainRun userId courseIds ps db env now1 today1).env
            (projectIdsOf (scopedCourses F userId courseIds))).2 }
      hH

/-- C1 witness: a failure-free first run over one unlinked assignment,
followed by a second run that creates nothing. -/
theorem claim_C1_witness :
    (∃ res1, (syncAssignmentsToTodoist "u" ["c1"] none dbW envNoFail 0 0).result =
      Except.ok res1) ∧
    ∃ res2,
      (syncAssignmentsToTodoist "u" ["c1"] none
        (syncAssignmentsToTodoist "u" ["c1"] none dbW envNoFail 0 0).db
        (syncAssignmentsToTodoist "u" ["c1"] none dbW envNoFail 0 0).env
        1 0).result = Except.ok res2 ∧
      res2.created = 0 :=
  claim_C1 "u" ["c1"] none dbW envNoFail 0 0 1 0 rfl (by decide) rfl (by decide) (by decide)

/-! ## Claim C5 -/

/-- Closed form of the loop iteration on a linked assignment whose
update fails. -/
theorem processOne_linked_fail (courses : List Course) (ns : NormalizedPrioritySettings)
    (now today : Int) (st : LoopState) (a : Assignment) (tid : String)
    (heff : effectiveProject courses a ≠ none)
    (hal : a.todoistTaskId = some tid)
    (hupd : updateOk st.env tid = false) :
    processOne courses ns now today st a =
      { st with
        db := updateAssignmentRow st.db a.id (fun r =>
          { r with todoistTaskId := none, lastSyncedAt := some now })
        skipped := st.skipped + 1
        events := st.events ++ [SyncEvent.destCall false] } := by
  rcases processOne_spec courses ns now today st a with ⟨hp, he⟩ |
    ⟨p, t, hp, hl, hk, hu, he⟩ | ⟨p, t, hp, hl, hk, hu, he⟩ |
    ⟨p, hp, hl, hk, hc, he⟩ | ⟨p, hp, hl, hk, hc, he⟩ |
    ⟨p, t, hp, hl, hu, he⟩ | ⟨p, t, hp, hl, hu, he⟩
  · exact absurd hp heff
  · rw [hal] at hl
    exact Option.noConfusion hl
  · rw [hal] at hl
    exact Option.noConfusion hl
  · rw [hal] at hl
    exact Option.noConfusion hl
  · rw [hal] at hl
    exact Option.noConfusion hl
  · have ht : tid = t := Option.some.inj (hal.symm.trans hl)
    rw [← ht, hupd] at hu
    exact Bool.noConfusion hu
  · exact he

/-- Closed form of the loop iteration on an unlinked assignment with no
index match and a successful creation. -/
theorem processOne_creates (courses : List Course) (ns : NormalizedPrioritySettings)
    (now today : Int) (st : LoopState) (a : Assignment) (proj : String)
    (heff : effectiveProject courses a = some proj)
    (hal : a.todoistTaskId = none)
    (hlook : lookupKey st.index (makeTaskKey proj a.name) = none)
    (hcf : st.env.createFails proj a.name = false) :
    processOne courses ns now today st a =
      { st with
        env := (createRemote st.env proj a.name (assignPriority ns today a) a.dueDate).2
        db := updateAssignmentRow st.db a.id (fun x =>
          { x with
            todoistTaskId :=
              some (createRemote st.env proj a.name (assignPriority ns today a) a.dueDate).1
            lastSyncedAt := some now })
        index := setKey st.index (makeTaskKey proj a.name)
          (createRemote st.env proj a.name (assignPriority ns today a) a.dueDate).1
        created := st.created + 1
        events := st.events ++ [SyncEvent.destCall true] } := by
  rcases processOne_spec courses ns now today st a with ⟨hp, he⟩ |
    ⟨p, t, hp, hl, hk, hu, he⟩ | ⟨p, t, hp, hl, hk, hu, he⟩ |
    ⟨p, hp, hl, hk, hc, he⟩ | ⟨p, hp, hl, hk, hc, he⟩ |
    ⟨p, t, hp, hl, hu, he⟩ | ⟨p, t, hp, hl, hu, he⟩
  · rw [heff] at hp
    exact Option.noConfusion hp
  · have hpp : proj = p := Option.some.inj (heff.symm.trans hp)
    subst hpp
    rw [hlook] at hk
    exact Option.noConfusion hk
  · have hpp : proj = p := Option.some.inj (heff.symm.trans hp)
    subst hpp
    rw [hlook] at hk
    exact Option.noConfusion hk
  · have hpp : proj = p := Option.some.inj (heff.symm.trans hp)
    subst hpp
    rw [hcf] at hc
    exact Bool.noConfusion hc
  · have hpp : proj = p := Option.some.inj (heff.symm.trans hp)
    subst hpp
    exact he
  · rw [hal] at hl
    exact Option.noConfusion hl
  · rw [hal] at hl
    exact Option.noConfusion hl

/-- Indexing tasks none of which carries the key leaves lookups of the
key unchanged. -/
theorem indexProject_lookup_none (p k : String) :
    ∀ (tasks : List RemoteTask) (ix : List (String × String)),
    (∀ t ∈ tasks, makeTaskKey p t.content ≠ k) → lookupKey ix k = none →
    lookupKey (indexProject ix tasks p) k = none := by
  intro tasks
  induction tasks with
  | nil =>
    intro ix _ h
    exact h
  | cons t ts ih =>
    intro ix hne h
    have hstep : indexProject ix (t :: ts) p =
        indexProject (if (lookupKey ix (makeTaskKey p t.content)).isSome then ix
          else ix ++ [(makeTaskKey p t.content, t.id)]) ts p := rfl
    rw [hstep]
    apply ih
    · exact fun t2 ht2 => hne t2 (List.mem_cons_of_mem t ht2)
    · by_cases hs : (lookupKey ix (makeTaskKey p t.content)).isSome
      · rw [if_pos hs]
        exact h
      · rw [if_neg hs]
        rw [lookupKey_append, h]
        have h2 : lookupKey [(makeTaskKey p t.content, t.id)] k = none := by
          have hne1 : makeTaskKey p t.content ≠ k := hne t (List.mem_cons_self t ts)
          simp [lookupKey, hne1]
        rw [h2]
        rfl

/-- C5: a linked assignment whose destination task is gone: the first
run clears the stored task id, stamps lastSyncedAt, and counts the
assignment skipped, not created; the second run, finding the assignment
unlinked and no task with its title in the destination index, creates a
fresh destination task, links it and counts it created. -/
theorem claim_C5 (uid p tid : String) (c : Course) (a : Assignment) (env : TodoistEnv)
    (ps : Option PrioritySettingsInput) (now1 today1 now2 today2 : Int) (db : Db)
    (hdb : db = { configuredUsers := [uid], courses := [c], assignments := [a]
                  syncRuns := [], nextRunId := 0, storeFails := false })
    (hcu : c.userId = uid) (hcp : c.todoistProjectId = some p) (hpne : p ≠ "")
    (hac : a.courseId = c.id)
    (hal : a.todoistTaskId = some tid)
    (hgone : ∀ t ∈ env.tasks, t.id ≠ tid)
    (hlist : env.listFails p = false)
    (hnomatch : ∀ t ∈ env.tasks, makeTaskKey p t.content ≠ makeTaskKey p a.name)
    (hcreate : env.createFails p a.name = false) :
    (syncAssignmentsToTodoist uid [c.id] ps db env now1 today1).result =
      Except.ok { created := 0, skipped := 1 } ∧
    (∀ r ∈ (syncAssignmentsToTodoist uid [c.id] ps db env now1 today1).db.assignments,
      r.todoistTaskId = none) ∧
    (syncAssignmentsToTodoist uid [c.id] ps
      (syncAssignmentsToTodoist uid [c.id] ps db env now1 today1).db
      (syncAssignmentsToTodoist uid [c.id] ps db env now1 today1).env
      now2 today2).result = Except.ok { created := 1, skipped := 0 } ∧
    (∀ r ∈ (syncAssignmentsToTodoist uid [c.id] ps
      (syncAssignmentsToTodoist uid [c.id] ps db env now1 today1).db
      (syncAssignmentsToTodoist uid [c.id] ps db env now1 today1).env
      now2 today2).db.assignments,
      r.todoistTaskId = some (freshId env.nextId)) := by
  have hdbc : db.courses = [c] := by rw [hdb]
  have hdba : db.assignments = [a] := by rw [hdb]
  have hdbu : db.configuredUsers = [uid] := by rw [hdb]
  have hdbs : db.storeFails = false := by rw [hdb]
  have hscoped : scopedCourses db uid [c.id] = [c] := by
    unfold scopedCourses
    rw [hdbc]
    simp [hcu, hcp]
  have hsnap : scopedAssignments db [c] = [a] := by
    unfold scopedAssignments
    rw [hdba]
    simp [hac]
  have hconf1 : db.configuredUsers.contains uid = true := by
    rw [hdbu]
    simp
  have hsc1 : (scopedCourses db uid [c.id]).isEmpty = false := by
    rw [hscoped]
    rfl
  have hproj1 : projectIdsOf [c] = [p] := by
    unfold projectIdsOf dedupFirst
    simp [hcp, hpne]
  have hindexp : buildIndex env [p] =
      (indexProject [] (projectTasks env p) p, [SyncEvent.destCall true]) := by
    unfold buildIndex
    simp [hlist]
  have htex : taskExists env tid = false := by
    unfold taskExists
    rw [List.any_eq_false]
    intro t ht
    simpa using hgone t ht
  have hupd : updateOk env tid = false := by
    unfold updateOk
    rw [htex, Bool.and_false]
  have heffp : effectiveProject [c] a = some p := by
    have hfind : List.find? (fun c2 => c2.id == a.courseId) [c] = some c := by
      simp [hac]
    simp only [effectiveProject, hfind, hcp, if_neg hpne]
  rw [sync_eq_main uid [c.id] ps db env now1 today1 rfl hconf1 hsc1 hdbs]
  dsimp only
  have hM1 : mainRun uid [c.id] ps db env now1 today1 =
      { db := updateAssignmentRow (dbWithRun db uid [c.id]) a.id (fun r =>
          { r with todoistTaskId := none, lastSyncedAt := some now1 })
        env := env
        index := indexProject [] (projectTasks env p) p
        created := 0
        skipped := 0 + 1
        events := ([SyncEvent.createRun .RUNNING] ++ [SyncEvent.destCall true]) ++
          [SyncEvent.destCall false] } := by
    unfold mainRun
    rw [hscoped, hsnap, hproj1, hindexp, processAll_cons, processAll_nil]
    rw [processOne_linked_fail [c] (normalizePrioritySettings ps) now1 today1
      { db := dbWithRun db uid [c.id]
        env := env
        index := (indexProject [] (projectTasks env p) p, [SyncEvent.destCall true]).1
        created := 0
        skipped := 0
        events := [SyncEvent.createRun .RUNNING] ++
          (indexProject [] (projectTasks env p) p, [SyncEvent.destCall true]).2 }
      a tid (by rw [heffp]; exact fun hh => Option.noConfusion hh) hal hupd]
  rw [hM1]
  dsimp only
  refine ⟨rfl, ?_, ?_, ?_⟩
  · intro r hr
    have hr2 : r ∈ applyRow db.assignments a.id (fun r =>
        { r with todoistTaskId := none, lastSyncedAt := some now1 }) := hr
    rw [hdba] at hr2
    simp [applyRow] at hr2
    rw [hr2]
  · have hda2 : (finalizeSyncRun
        (updateAssignmentRow (dbWithRun db uid [c.id]) a.id (fun r =>
          { r with todoistTaskId := none, lastSyncedAt := some now1 }))
        db.nextRunId .SUCCESS (successMsg 0 (0 + 1)) now1).assignments =
        [{ a with todoistTaskId := none, lastSyncedAt := some now1 }] := by
      show applyRow db.assignments a.id (fun r =>
        { r with todoistTaskId := none, lastSyncedAt := some now1 }) = _
      rw [hdba]
      simp [applyRow]
    have hdc2 : (finalizeSyncRun
        (updateAssignmentRow (dbWithRun db uid [c.id]) a.id (fun r =>
          { r with todoistTaskId := none, lastSyncedAt := some now1 }))
        db.nextRunId .SUCCESS (successMsg 0 (0 + 1)) now1).courses = [c] := hdbc
    have hdu2 : (finalizeSyncRun
        (updateAssignmentRow (dbWithRun db uid [c.id]) a.id (fun r =>
          { r with todoistTaskId := none, lastSyncedAt := some now1 }))
        db.nextRunId .SUCCESS (successMsg 0 (0 + 1)) now1).configuredUsers.contains uid =
        true := hconf1
    have hds2 : (finalizeSyncRun
        (updateAssignmentRow (dbWithRun db uid [c.id]) a.id (fun r =>
          { r with todoistTaskId := none, lastSyncedAt := some now1 }))
        db.nextRunId .SUCCESS (successMsg 0 (0 + 1)) now1).storeFails = false := hdbs
    have hscoped2 : scopedCourses (finalizeSyncRun
        (updateAssignmentRow (dbWithRun db uid [c.id]) a.id (fun r =>
          { r with todoistTaskId := none, lastSyncedAt := some now1 }))
        db.nextRunId .SUCCESS (successMsg 0 (0 + 1)) now1) uid [c.id] = [c] := by
      unfold scopedCourses
      rw [hdc2]
      simp [hcu, hcp]
    have hsc2 : (scopedCourses (finalizeSyncRun
        (updateAssignmentRow (dbWithRun db uid [c.id]) a.id (fun r =>
          { r with todoistTaskId := none, lastSyncedAt := some now1 }))
        db.nextRunId .SUCCESS (successMsg 0 (0 + 1)) now1) uid [c.id]).isEmpty = false := by
      rw [hscoped2]
      rfl
    have hsnap2 : scopedAssignments (finalizeSyncRun
        (updateAssignmentRow (dbWithRun db uid [c.id]) a.id (fun r =>
          { r with todoistTaskId := none, lastSyncedAt := some now1 }))
        db.nextRunId .SUCCESS (successMsg 0 (0 + 1)) now1) [c] =
        [{ a with todoistTaskId := none, lastSyncedAt := some now1 }] := by
      unfold scopedAssignments
      rw [hda2]
      simp [hac]
    have heff2 : effectiveProject [c]
        { a with todoistTaskId := none, lastSyncedAt := some now1 } = some p :=
      (effectiveProject_congr [c]
        { a with todoistTaskId := none, lastSyncedAt := some now1 } a rfl).trans heffp
    have hlook2 : lookupKey (indexProject [] (projectTasks env p) p)
        (makeTaskKey p a.name) = none :=
      indexProject_lookup_none p (makeTaskKey p a.name) (projectTasks env p) []
        (fun t ht => hnomatch t (List.mem_of_mem_filter ht)) rfl
    have hM2 : mainRun uid [c.id] ps (finalizeSyncRun
        (updateAssignmentRow (dbWithRun db uid [c.id]) a.id (fun r =>
          { r with todoistTaskId := none, lastSyncedAt := some now1 }))
        db.nextRunId .SUCCESS (successMsg 0 (0 + 1)) now1) env now2 today2 =
        { db := updateAssignmentRow (dbWithRun (finalizeSyncRun
            (updateAssignmentRow (dbWithRun db uid [c.id]) a.id (fun r =>
              { r with todoistTaskId := none, lastSyncedAt := some now1 }))
            db.nextRunId .SUCCESS (successMsg 0 (0 + 1)) now1) uid [c.id]) a.id (fun x =>
              { x with todoistTaskId := some (freshId env.nextId)
                       lastSyncedAt := some now2 })
          env := (createRemote env p a.name (assignPriority (normalizePrioritySettings ps)
            today2 { a with todoistTaskId := none, lastSyncedAt := some now1 })
            a.dueDate).2
          index := setKey (indexProject [] (projectTasks env p) p) (makeTaskKey p a.name)
            (freshId env.nextId)
          created := 0 + 1
          skipped := 0
          events := ([SyncEvent.createRun .RUNNING] ++ [SyncEvent.destCall true]) ++
            [SyncEvent.destCall true] } := by
      unfold mainRun
      rw [hscoped2, hsnap2, hproj1, hindexp, processAll_cons, processAll_nil]
      rw [processOne_creates [c] (normalizePrioritySettings ps) now2 today2
        { db := dbWithRun (finalizeSyncRun
            (updateAssignmentRow (dbWithRun db uid [c.id]) a.id (fun r =>
              { r with todoistTaskId := none, lastSyncedAt := some now1 }))
            db.nextRunId .SUCCESS (successMsg 0 (0 + 1)) now1) uid [c.id]
          env := env
          index := (indexProject [] (projectTasks env p) p, [SyncEvent.destCall true]).1
          created := 0
          skipped := 0
          events := [SyncEvent.createRun .RUNNING] ++
            (indexProject [] (projectTasks env p) p, [SyncEvent.destCall true]).2 }
        { a with todoistTaskId := none, lastSyncedAt := some now1 }
        p heff2 rfl hlook2 hcreate]
      rfl
    rw [sync_eq_main uid [c.id] ps (finalizeSyncRun
        (updateAssignmentRow (dbWithRun db uid [c.id]) a.id (fun r =>
          { r with todoistTaskId := none, lastSyncedAt := some now1 }))
        db.nextRunId .SUCCESS (successMsg 0 (0 + 1)) now1) env now2 today2
      rfl hdu2 hsc2 hds2, hM2]
  · have hda2 : (finalizeSyncRun
        (updateAssignmentRow (dbWithRun db uid [c.id]) a.id (fun r =>
          { r with todoistTaskId := none, lastSyncedAt := some now1 }))
        db.nextRunId .SUCCESS (successMsg 0 (0 + 1)) now1).assignments =
        [{ a with todoistTaskId := none, lastSyncedAt := some now1 }] := by
      show applyRow db.assignments a.id (fun r =>
        { r with todoistTaskId := none, lastSyncedAt := some now1 }) = _
      rw [hdba]
      simp [applyRow]
    have hdc2 : (finalizeSyncRun
        (updateAssignmentRow (dbWithRun db uid [c.id]) a.id (fun r =>
          { r with todoistTaskId := none, lastSyncedAt := some now1 }))
        db.nextRunId .SUCCESS (successMsg 0 (0 + 1)) now1).courses = [c] := hdbc
    have hdu2 : (finalizeSyncRun
        (updateAssignmentRow (dbWithRun db uid [c.id]) a.id (fun r =>
          { r with todoistTaskId := none, lastSyncedAt := some now1 }))
        db.nextRunId .SUCCESS (successMsg 0 (0 + 1)) now1).configuredUsers.contains uid =
        true := hconf1
    have hds2 : (finalizeSyncRun
        (updateAssignmentRow (dbWithRun db uid [c.id]) a.id (fun r =>
          { r with todoistTaskId := none, lastSyncedAt := some now1 }))
        db.nextRunId .SUCCESS (successMsg 0 (0 + 1)) now1).storeFails = false := hdbs
    have hscoped2 : scopedCourses (finalizeSyncRun
        (updateAssignmentRow (dbWithRun db uid [c.id]) a.id (fun r =>
          { r with todoistTaskId := none, lastSyncedAt := some now1 }))
        db.nextRunId .SUCCESS (successMsg 0 (0 + 1)) now1) uid [c.id] = [c] := by
      unfold scopedCourses
      rw [hdc2]
      simp [hcu, hcp]
    have hsc2 : (scopedCourses (finalizeSyncRun
        (updateAssignmentRow (dbWithRun db uid [c.id]) a.id (fun r =>
          { r with todoistTaskId := none, lastSyncedAt := some now1 }))
        db.nextRunId .SUCCESS (successMsg 0 (0 + 1)) now1) uid [c.id]).isEmpty = false := by
      rw [hscoped2]
      rfl
    have hsnap2 : scopedAssignments (finalizeSyncRun
        (updateAssignmentRow (dbWithRun db uid [c.id]) a.id (fun r =>
          { r with todoistTaskId := none, lastSyncedAt := some now1 }))
        db.nextRunId .SUCCESS (successMsg 0 (0 + 1)) now1) [c] =
        [{ a with todoistTaskId := none, lastSyncedAt := some now1 }] := by
      unfold scopedAssignments
      rw [hda2]
      simp [hac]
    have heff2 : effectiveProject [c]
        { a with todoistTaskId := none, lastSyncedAt := some now1 } = some p :=
      (effectiveProject_congr [c]
        { a with todoistTaskId := none, lastSyncedAt := some now1 } a rfl).trans heffp
    have hlook2 : lookupKey (indexProject [] (projectTasks env p) p)
        (makeTaskKey p a.name) = none :=
      indexProject_lookup_none p (makeTaskKey p a.name) (projectTasks env p) []
        (fun t ht => hnomatch t (List.mem_of_mem_filter ht)) rfl
    have hM2 : mainRun uid [c.id] ps (finalizeSyncRun
        (updateAssignmentRow (dbWithRun db uid [c.id]) a.id (fun r =>
          { r with todoistTaskId := none, lastSyncedAt := some now1 }))
        db.nextRunId .SUCCESS (successMsg 0 (0 + 1)) now1) env now2 today2 =
        { db := updateAssignmentRow (dbWithRun (finalizeSyncRun
            (updateAssignmentRow (dbWithRun db uid [c.id]) a.id (fun r =>
              { r with todoistTaskId := none, lastSyncedAt := some now1 }))
            db.nextRunId .SUCCESS (successMsg 0 (0 + 1)) now1) uid [c.id]) a.id (fun x =>
              { x with todoistTaskId := some (freshId env.nextId)
                       lastSyncedAt := some now2 })
          env := (createRemote env p a.name (assignPriority (normalizePrioritySettings ps)
            today2 { a with todoistTaskId := none, lastSyncedAt := some now1 })
            a.dueDate).2
          index := setKey (indexProject [] (projectTasks env p) p) (makeTaskKey p a.name)
            (freshId env.nextId)
          created := 0 + 1
          skipped := 0
          events := ([SyncEvent.createRun .RUNNING] ++ [SyncEvent.destCall true]) ++
            [SyncEvent.destCall true] } := by
      unfold mainRun
      rw [hscoped2, hsnap2, hproj1, hindexp, processAll_cons, processAll_nil]
      rw [processOne_creates [c] (normalizePrioritySettings ps) now2 today2
        { db := dbWithRun (finalizeSyncRun
            (updateAssignmentRow (dbWithRun db uid [c.id]) a.id (fun r =>
              { r with todoistTaskId := none, lastSyncedAt := some now1 }))
            db.nextRunId .SUCCESS (successMsg 0 (0 + 1)) now1) uid [c.id]
          env := env
          index := (indexProject [] (projectTasks env p) p, [SyncEvent.destCall true]).1
          created := 0
          skipped := 0
          events := [SyncEvent.createRun .RUNNING] ++
            (indexProject [] (projectTasks env p) p, [SyncEvent.destCall true]).2 }
        { a with todoistTaskId := none, lastSyncedAt := some now1 }
        p heff2 rfl hlook2 hcreate]
      rfl
    rw [sync_eq_main uid [c.id] ps (finalizeSyncRun
        (updateAssignmentRow (dbWithRun db uid [c.id]) a.id (fun r =>
          { r with todoistTaskId := none, lastSyncedAt := some now1 }))
        db.nextRunId .SUCCESS (successMsg 0 (0 + 1)) now1) env now2 today2
      rfl hdu2 hsc2 hds2, hM2]
    intro r hr
    have hr2 : r ∈ applyRow
        [{ a with todoistTaskId := none, lastSyncedAt := some now1 }] a.id (fun x =>
          { x with todoistTaskId := some (freshId env.nextId)
                   lastSyncedAt := some now2 }) := by
      have hr3 : r ∈ applyRow (finalizeSyncRun
          (updateAssignmentRow (dbWithRun db uid [c.id]) a.id (fun r =>
            { r with todoistTaskId := none, lastSyncedAt := some now1 }))
          db.nextRunId .SUCCESS (successMsg 0 (0 + 1)) now1).assignments a.id (fun x =>
            { x with todoistTaskId := some (freshId env.nextId)
                     lastSyncedAt := some now2 }) := hr
      rw [hda2] at hr3
      exact hr3
    simp [applyRow] at hr2
    rw [hr2]

/-- C5 witness: the recreation-after-deletion scenario at a concrete
store, course, assignment and destination. -/
theorem claim_C5_witness :
    (syncAssignmentsToTodoist "u" ["c1"] none
      (dbFor [{ id := "a1", courseId := "c1", name := "T", dueDate := none
                todoistTaskId := some "ghost", lastSyncedAt := none }])
      envNoFail 0 0).result = Except.ok { created := 0, skipped := 1 } ∧
    (∀ r ∈ (syncAssignmentsToTodoist "u" ["c1"] none
      (dbFor [{ id := "a1", courseId := "c1", name := "T", dueDate := none
                todoistTaskId := some "ghost", lastSyncedAt := none }])
      envNoFail 0 0).db.assignments, r.todoistTaskId = none) ∧
    (syncAssignmentsToTodoist "u" ["c1"] none
      (syncAssignmentsToTodoist "u" ["c1"] none
        (dbFor [{ id := "a1", courseId := "c1", name := "T", dueDate := none
                  todoistTaskId := some "ghost", lastSyncedAt := none }])
        envNoFail 0 0).db
      (syncAssignmentsToTodoist "u" ["c1"] none
        (dbFor [{ id := "a1", courseId := "c1", name := "T", dueDate := none
                  todoistTaskId := some "ghost", lastSyncedAt := none }])
        envNoFail 0 0).env
      1 0).result = Except.ok { created := 1, skipped := 0 } ∧
    (∀ r ∈ (syncAssignmentsToTodoist "u" ["c1"] none
      (syncAssignmentsToTodoist "u" ["c1"] none
        (dbFor [{ id := "a1", courseId := "c1", name := "T", dueDate := none
                  todoistTaskId := some "ghost", lastSyncedAt := none }])
        envNoFail 0 0).db
      (syncAssignmentsToTodoist "u" ["c1"] none
        (dbFor [{ id := "a1", courseId := "c1", name := "T", dueDate := none
                  todoistTaskId := some "ghost", lastSyncedAt := none }])
        envNoFail 0 0).env
      1 0).db.assignments, r.todoistTaskId = some (freshId envNoFail.nextId)) :=
  claim_C5 "u" "P" "ghost" courseU
    { id := "a1", courseId := "c1", name := "T", dueDate := none
      todoistTaskId := some "ghost", lastSyncedAt := none }
    envNoFail none 0 0 1 0
    (dbFor [{ id := "a1", courseId := "c1", name := "T", dueDate := none
              todoistTaskId := some "ghost", lastSyncedAt := none }])
    rfl rfl rfl (by decide) rfl rfl
    (fun t ht => absurd ht (List.not_mem_nil t)) rfl
    (fun t ht => absurd ht (List.not_mem_nil t)) rfl

end Tasklink
